import Mathlib

/-!
# Dub siren: a shallow embedding of `script-new.js` (and parts of `script-old.js`)

The script is event-driven JavaScript over the browser's Web Audio and timer
interfaces.  The embedding keeps one record, `World`, holding

* the module-level variables of the script (`audioContext`, `oscillator`, ...),
* the variables captured by the closures of `initializePad` and `setupKnob`,
* the part of the page the script reads and writes (knob `data-value`
  attributes, knob transforms, value labels, pad background colours),
* the part of the platform the script drives: audio nodes with their parameter
  timelines, the connection graph, pending timers and the two clocks,
* a trace of every platform call, in call order.

Conventions.

* JavaScript numbers are rationals; `NaN` (what `parseFloat` gives for a missing
  or malformed attribute) is `none` in an `Option Rat`.
* The page itself is not part of the sources: every element the script looks up
  by id is taken to exist; the content of each knob's `data-value` is free.
* A function whose body can throw returns a `Completion`, which carries the
  world reached when the exception was raised.
* `log(...)` calls at level info are dropped; errors logged by a `catch` block
  are recorded in `World.caught`.
* Of the platform only what the script can observe or cause is kept: which calls
  are made, in which order and with which arguments, which of them throw
  (a member access on `null`, `stop()` on an oscillator that is not running,
  `start()` on one that was started, an exponential ramp to 0, a `NaN` argument),
  and when a timer callback may run (not before its delay has elapsed).  The
  rendered audio signal and the suspended/running state of the context are not.
* Timer handles start at 1, as the platform hands out positive handles.

The first part of the file holds the definitions, the second part the theorems.
-/

namespace DubSiren

/-! ## Identifiers and small enumerations -/

/-! Audio nodes and timers are identified by natural numbers, handed out in order. -/

/-- The four pads bound in the `DOMContentLoaded` handler. -/
inductive PadId where
  | pad1 | pad2 | pad3 | pad4
  deriving DecidableEq, Repr

/-- The seven knobs declared in `setupKnobControls`. -/
inductive KnobId where
  | frequency | reverbAmount | roomSize | modSpeed | delayTime | feedback | volume
  deriving DecidableEq, Repr

/-- The DOM event types the pad handlers are registered for. -/
inductive EventType where
  | mousedown | mouseup | mouseleave | touchstart | touchend
  deriving DecidableEq, Repr

/-- Models `e.type.includes('touch')`. -/
def EventType.includesTouch : EventType → Bool
  | .touchstart => true
  | .touchend => true
  | _ => false

inductive Waveform where
  | sine | square | sawtooth | triangle
  deriving DecidableEq, Repr

inductive JsError where
  | typeError | invalidStateError | rangeError
  deriving DecidableEq, Repr

inductive NodeKind where
  | oscillator | gain | delay | convolver
  deriving DecidableEq, Repr

inductive OscStatus where
  | unstarted | running | stopped
  deriving DecidableEq, Repr

/-- Background colour of a pad: as styled by the page, `#333`, or `#004400`. -/
inductive PadColor where
  | page | idle | active
  deriving DecidableEq, Repr

/-- One scheduled event on an `AudioParam` timeline. -/
inductive Automation where
  | setValueAtTime (value time : Rat)
  | linearRampToValueAtTime (value time : Rat)
  | exponentialRampToValueAtTime (value time : Rat)
  deriving DecidableEq, Repr

/-- Where a `connect` call leads: another node or `audioContext.destination`. -/
inductive Endpoint where
  | node (n : Nat)
  | destination
  deriving DecidableEq, Repr

/-- The callbacks the scripts hand to `setTimeout` / `setInterval`, with the values
their closures capture; `liveModulateFrequency` is the periodic callback of
`script-old.js`, which captures nothing and reads the controls when it runs. -/
inductive TimerAction where
  | fadeDone
  | modulateFrequency (baseFreq modSpeed : Rat)
  | rampDown (baseFreq endTime : Rat)
  | liveModulateFrequency
  deriving DecidableEq, Repr

/-- A pending timer; `period` is `some p` for a `setInterval` timer. -/
structure Timer where
  id : Nat
  due : Rat
  period : Option Rat
  action : TimerAction
  deriving DecidableEq, Repr

/-- A call into the platform (Web Audio or timers). -/
inductive ApiCall where
  | createNode (kind : NodeKind) (n : Nat)
  | connect (src : Nat) (dst : Endpoint)
  | automate (n : Nat) (a : Automation)
  | setType (n : Nat) (wf : Waveform)
  | start (n : Nat)
  | stop (n : Nat)
  | setTimeout (id : Nat) (delay : Rat) (action : TimerAction)
  | setInterval (id : Nat) (period : Rat) (action : TimerAction)
  | clearInterval (id : Nat)
  deriving DecidableEq, Repr

/-- Closure variables of one `setupKnob` call. -/
structure DragState where
  isDragging : Bool
  startY : Rat
  currentValue : Option Rat
  deriving DecidableEq, Repr

/-! ## The world -/

structure World where
  /-- Whether `new AudioContext()` succeeds on this platform. -/
  audioSupported : Bool
  /-- Value of `audioContext.currentTime`, in seconds. -/
  currentTime : Rat
  /-- Clock of the event loop that drives timers, in milliseconds. -/
  clock : Rat
  nextNode : Nat
  nextTimer : Nat
  /-- Timeline of the node's parameter (frequency, gain or delayTime). -/
  param : Nat → List Automation
  oscStatus : Nat → OscStatus
  oscType : Nat → Option Waveform
  edges : List (Nat × Endpoint)
  timers : List Timer
  trace : List ApiCall
  /-- Module variable `audioContext` is non-null. -/
  audioContext : Bool
  oscillator : Option Nat
  gainNode : Option Nat
  delayNode : Option Nat
  feedbackNode : Option Nat
  convolverNode : Option Nat
  dryGainNode : Option Nat
  wetGainNode : Option Nat
  mixerNode : Option Nat
  currentPad : Option PadId
  currentModulationInterval : Option Nat
  /-- Module variable `isPlaying`, which only `script-old.js` has. -/
  isPlaying : Bool
  /-- Closure variable `isTouch` of each `initializePad` call. -/
  isTouch : PadId → Bool
  /-- Closure variables of each `setupKnob` call. -/
  drag : KnobId → DragState
  /-- Whether the `DOMContentLoaded` handler registered the pad and knob handlers. -/
  listening : Bool
  /-- Value of the `waveform` select element. -/
  waveform : Waveform
  /-- Result of `parseFloat(knob.dataset.value)`; `none` is `NaN`. -/
  knobValue : KnobId → Option Rat
  /-- Angle of the knob's `rotate(...)` transform, in degrees. -/
  knobRotation : KnobId → Rat
  /-- Text content of the knob's value display. -/
  label : KnobId → String
  padColor : PadId → PadColor
  /-- Errors logged by a `catch` block. -/
  caught : List JsError
  /-- Exceptions that escaped an event handler or timer callback. -/
  uncaught : List JsError

/-- Outcome of running a piece of script: normal completion or a thrown error,
each with the world reached. -/
inductive Completion where
  | normal (w : World)
  | throw (e : JsError) (w : World)

def Completion.world : Completion → World
  | .normal w => w
  | .throw _ w => w

def Completion.isNormal : Completion → Bool
  | .normal _ => true
  | .throw _ _ => false

/-- Sequencing: run `f` on the world of a normal completion, propagate a throw. -/
def Completion.andThen (c : Completion) (f : World → Completion) : Completion :=
  match c with
  | .normal w => f w
  | .throw e w => .throw e w

/-- Models `try { body } catch (error) { handler }`. -/
def jsTryCatch (body : Completion) (handler : JsError → World → Completion) : Completion :=
  match body with
  | .normal w => .normal w
  | .throw e w => handler e w

/-- Models `parseFloat(attr) || dflt`: the default replaces `NaN` and `0`. -/
def parseFloatOr (attr : Option Rat) (dflt : Rat) : Rat :=
  match attr with
  | none => dflt
  | some v => if v = 0 then dflt else v

/-- JavaScript truthiness of a timer handle: `null` and `0` are falsy. -/
def truthyHandle : Option Nat → Bool
  | none => false
  | some id => id != 0

/-! ## Platform primitives -/

/-- Models `audioContext.createOscillator()` and friends: a fresh node with an empty timeline. -/
def World.createNode (w : World) (kind : NodeKind) : Nat × World :=
  (w.nextNode,
    { w with
      nextNode := w.nextNode + 1
      param := Function.update w.param w.nextNode []
      oscStatus := Function.update w.oscStatus w.nextNode .unstarted
      oscType := Function.update w.oscType w.nextNode none
      trace := w.trace ++ [.createNode kind w.nextNode] })

/-- Appends one automation event to the parameter timeline of node `n`. -/
def World.automate (w : World) (n : Nat) (a : Automation) : World :=
  { w with
    param := Function.update w.param n (w.param n ++ [a])
    trace := w.trace ++ [.automate n a] }

def World.connect (w : World) (src : Nat) (dst : Endpoint) : World :=
  { w with
    edges := w.edges ++ [(src, dst)]
    trace := w.trace ++ [.connect src dst] }

def World.setType (w : World) (n : Nat) (wf : Waveform) : World :=
  { w with
    oscType := Function.update w.oscType n (some wf)
    trace := w.trace ++ [.setType n wf] }

/-- Models `OscillatorNode.start()`: an `InvalidStateError` unless the node was never started. -/
def World.oscStart (w : World) (n : Nat) : Completion :=
  if w.oscStatus n = .unstarted then
    .normal
      { w with
        oscStatus := Function.update w.oscStatus n .running
        trace := w.trace ++ [.start n] }
  else .throw .invalidStateError w

/-- Models `OscillatorNode.stop()`: an `InvalidStateError` unless the node is running
(never started, or, on implementations that reject a second stop, already stopped). -/
def World.oscStop (w : World) (n : Nat) : Completion :=
  if w.oscStatus n = .running then
    .normal
      { w with
        oscStatus := Function.update w.oscStatus n .stopped
        trace := w.trace ++ [.stop n] }
  else .throw .invalidStateError w

/-- Models `setTimeout(action, delay)`. -/
def World.setTimeout (w : World) (action : TimerAction) (delay : Rat) : Nat × World :=
  (w.nextTimer,
    { w with
      nextTimer := w.nextTimer + 1
      timers := w.timers ++ [⟨w.nextTimer, w.clock + delay, none, action⟩]
      trace := w.trace ++ [.setTimeout w.nextTimer delay action] })

/-- Models `setInterval(action, period)`. -/
def World.setInterval (w : World) (action : TimerAction) (period : Rat) : Nat × World :=
  (w.nextTimer,
    { w with
      nextTimer := w.nextTimer + 1
      timers := w.timers ++ [⟨w.nextTimer, w.clock + period, some period, action⟩]
      trace := w.trace ++ [.setInterval w.nextTimer period action] })

/-- Models `clearInterval(id)`: the timer with that handle, if any, is cancelled. -/
def World.clearInterval (w : World) (id : Nat) : World :=
  { w with
    timers := w.timers.filter (fun t => t.id != id)
    trace := w.trace ++ [.clearInterval id] }

def World.logCaught (w : World) (e : JsError) : World :=
  { w with caught := w.caught ++ [e] }

/-- The live periodic (`setInterval`) timers. -/
def World.intervals (w : World) : List Timer :=
  w.timers.filter (fun t => t.period.isSome)

/-- Models `AudioParam.exponentialRampToValueAtTime`: a `RangeError` when the target is 0. -/
def World.exponentialRamp (w : World) (n : Nat) (value time : Rat) : Completion :=
  if value = 0 then .throw .rangeError w
  else .normal (w.automate n (.exponentialRampToValueAtTime value time))

/-- Models `AudioParam.setValueAtTime` with a JavaScript number: a `TypeError` on `NaN`. -/
def World.setValueAtTime (w : World) (n : Nat) (value : Option Rat) (time : Rat) : Completion :=
  match value with
  | none => .throw .typeError w
  | some v => .normal (w.automate n (.setValueAtTime v time))

/-! ## Number formatting -/

/-- Models `Math.round`: the nearest integer, ties towards plus infinity. -/
def mathRound (v : Rat) : Int := ⌊v + 1 / 2⌋

/-- Decimal digits of `n`, left-padded with zeros to `width` characters. -/
def padDigits (width n : Nat) : String :=
  let digits := toString n
  String.mk (List.replicate (width - digits.length) '0') ++ digits

/-- Models `Number.prototype.toFixed(digits)` on a rational: nearest multiple of
`10^-digits`, ties away from zero. -/
def toFixed (v : Rat) (digits : Nat) : String :=
  let scaled : Nat := (⌊|v| * (10 : Rat) ^ digits + 1 / 2⌋).toNat
  let sign := if v < 0 then "-" else ""
  let whole := toString (scaled / 10 ^ digits)
  if digits = 0 then sign ++ whole
  else sign ++ whole ++ "." ++ padDigits digits (scaled % 10 ^ digits)

/-! ## UI helpers (`script-new.js`, lines 306-310 and 397-437) -/

/-- The angle computed on line 308. -/
def rotationOf (value min max : Rat) : Rat :=
  ((value - min) / (max - min) * 270) - 135

/-- Models `updateKnobRotation(knob, value, min, max)`; a `NaN` value yields an invalid
transform string, which the style declaration ignores. -/
def updateKnobRotation (knob : KnobId) (value : Option Rat) (min max : Rat) (w : World) : World :=
  match value with
  | none => w
  | some v => { w with knobRotation := Function.update w.knobRotation knob (rotationOf v min max) }

/-- The text `updateDisplay` writes for knob `id`. -/
def displayText (id : KnobId) (value : Option Rat) : String :=
  match id, value with
  | .frequency, some v => toString (mathRound v) ++ " Hz"
  | .frequency, none => "NaN Hz"
  | .delayTime, some v => toFixed v 2 ++ "s"
  | .delayTime, none => "NaNs"
  | _, some v => toFixed v 1
  | _, none => "NaN"

/-- Models `updateDisplay(id, value)`. -/
def updateDisplay (id : KnobId) (value : Option Rat) (w : World) : World :=
  { w with label := Function.update w.label id (displayText id value) }

/-- Models `updateParameter(id, value)`. -/
def updateParameter (id : KnobId) (value : Option Rat) (w : World) : Completion :=
  if !w.audioContext || w.oscillator.isNone then .normal w
  else
    let now := w.currentTime
    match id with
    | .frequency =>
      match w.oscillator with
      | some o => w.setValueAtTime o value now
      | none => .normal w
    | .delayTime =>
      match w.delayNode with
      | some d => w.setValueAtTime d value now
      | none => .normal w
    | .feedback =>
      match w.feedbackNode with
      | some f => w.setValueAtTime f value now
      | none => .normal w
    | .volume =>
      match w.gainNode with
      | some g => w.setValueAtTime g value now
      | none => .normal w
    | .reverbAmount =>
      match w.wetGainNode, w.dryGainNode with
      | some wet, some dry =>
        (w.setValueAtTime wet value now).andThen fun w1 =>
          w1.setValueAtTime dry (value.map fun v => 1 - v) now
      | _, _ => .normal w
    | _ => .normal w

/-! ## Knob controls (`script-new.js`, lines 345-395) -/

/-- The ranges passed to `setupKnob` by `setupKnobControls`. -/
def setupKnobControls : KnobId → Rat × Rat
  | .frequency => (20, 2000)
  | .reverbAmount => (0, 1)
  | .roomSize => (1 / 10, 9 / 10)
  | .modSpeed => (0, 10)
  | .delayTime => (0, 1)
  | .feedback => (0, 9 / 10)
  | .volume => (0, 1)

/-- Models `Math.max(min, Math.min(max, newValue))`; `NaN` propagates. -/
def clampedValue (min max : Rat) (newValue : Option Rat) : Option Rat :=
  newValue.map fun v => Max.max min (Min.min max v)

/-- Models `updateValue(newValue)` in the closure of `setupKnob(id, min, max)`. -/
def updateValue (id : KnobId) (min max : Rat) (newValue : Option Rat) (w : World) : Completion :=
  let clamped := clampedValue min max newValue
  let w1 := { w with knobValue := Function.update w.knobValue id clamped }
  let w2 := updateDisplay id clamped w1
  (updateParameter id clamped w2).andThen fun w3 =>
    .normal (updateKnobRotation id clamped min max w3)

/-- Models the knob's `mousedown` listener. -/
def knobMouseDown (id : KnobId) (clientY : Rat) (w : World) : World :=
  { w with drag := Function.update w.drag id ⟨true, clientY, w.knobValue id⟩ }

/-- Models `handleMouseMove(e)` in the closure of `setupKnob(id, min, max)`. -/
def handleMouseMove (id : KnobId) (min max : Rat) (clientY : Rat) (w : World) : Completion :=
  if !(w.drag id).isDragging then .normal w
  else
    let deltaY := (w.drag id).startY - clientY
    let range := max - min
    let newValue := (w.drag id).currentValue.map fun cv => cv + (deltaY / 100) * range
    updateValue id min max newValue w

/-- Models `handleMouseUp()` in the closure of `setupKnob`. -/
def handleMouseUp (id : KnobId) (w : World) : World :=
  { w with drag := Function.update w.drag id { w.drag id with isDragging := false } }

/-! ## Modulation (`script-new.js`, lines 267-304) -/

/-- Models `clearModulation()`. -/
def clearModulation (w : World) : World :=
  if truthyHandle w.currentModulationInterval then
    match w.currentModulationInterval with
    | some id => { w.clearInterval id with currentModulationInterval := none }
    | none => w
  else w

/-- Models one run of `modulateFrequency`, the callback given to `setInterval`. -/
def modulateFrequency (baseFreq modSpeed : Rat) (w : World) : Completion :=
  if !w.audioContext then .throw .typeError w
  else
    let now := w.currentTime
    match w.oscillator with
    | none => .throw .typeError w
    | some o =>
      (w.exponentialRamp o (baseFreq * 2) (now + 1 / (modSpeed * 2))).andThen fun w1 =>
        .normal (w1.setTimeout (.rampDown baseFreq (now + 1 / modSpeed)) (1000 / (modSpeed * 2))).2

/-- Models the one-shot callback scheduled by `modulateFrequency`. -/
def rampDown (baseFreq endTime : Rat) (w : World) : Completion :=
  match w.oscillator with
  | none => .throw .typeError w
  | some o => w.exponentialRamp o baseFreq endTime

/-- Lines 269-271 of `setupModulation`: a periodic timer still referred to is cancelled;
the variable keeps its value. -/
def cancelInterval (w : World) : World :=
  if truthyHandle w.currentModulationInterval then
    match w.currentModulationInterval with
    | some id => w.clearInterval id
    | none => w
  else w

/-- Models `setupModulation()`. -/
def setupModulation (w : World) : Completion :=
  let w1 := cancelInterval w
  let modSpeed := parseFloatOr (w1.knobValue .modSpeed) 1
  let baseFreq := parseFloatOr (w1.knobValue .frequency) 440
  if modSpeed > 0 then
    if !w1.audioContext then .throw .typeError w1
    else
      let now := w1.currentTime
      match w1.oscillator with
      | none => .throw .typeError w1
      | some o =>
        let w2 := w1.automate o (.setValueAtTime baseFreq now)
        let r := w2.setInterval (.modulateFrequency baseFreq modSpeed) (1000 / modSpeed)
        .normal { r.2 with currentModulationInterval := some r.1 }
  else .normal w1

/-! ## Audio system (`script-new.js`, lines 9-141) -/

/-- Models `initializeAudio()`: creates the context on first use; the constructor's
failure is caught and reported as `false`. -/
def initializeAudio (w : World) : Bool × World :=
  if w.audioContext then (true, w)
  else if w.audioSupported then (true, { w with audioContext := true })
  else (false, w.logCaught .typeError)

/-- The `fadeTime` constant of `stopSound`, in seconds. -/
def fadeTime : Rat := 5 / 100

/-- Lines 52-57 of `setupAudio`: an oscillator still referred to is halted and dropped. -/
def stopExisting (w : World) : Completion :=
  match w.oscillator with
  | some old => (w.oscStop old).andThen fun w1 => .normal { w1 with oscillator := none }
  | none => .normal w

/-- Lines 59-100 of `setupAudio`: the eight nodes are created, configured from the
page, connected, and the oscillator is started. -/
def buildVoice (w : World) : Completion :=
  let (osc, w2) := w.createNode .oscillator
  let (gain, w3) := w2.createNode .gain
  let (delay, w4) := w3.createNode .delay
  let (feedback, w5) := w4.createNode .gain
  let (convolver, w6) := w5.createNode .convolver
  let (dry, w7) := w6.createNode .gain
  let (wet, w8) := w7.createNode .gain
  let (mixer, w9) := w8.createNode .gain
  let w10 : World :=
    { w9 with
      oscillator := some osc
      gainNode := some gain
      delayNode := some delay
      feedbackNode := some feedback
      convolverNode := some convolver
      dryGainNode := some dry
      wetGainNode := some wet
      mixerNode := some mixer }
  let waveform := w10.waveform
  let frequency := parseFloatOr (w10.knobValue .frequency) 440
  let volume := parseFloatOr (w10.knobValue .volume) (1 / 2)
  let now := w10.currentTime
  let w11 := w10.setType osc waveform
  let w12 := w11.automate osc (.setValueAtTime frequency now)
  let w13 := w12.automate gain (.setValueAtTime volume now)
  let w14 := w13.automate dry (.setValueAtTime 1 now)
  let w15 := w14.automate wet (.setValueAtTime 0 now)
  let w16 := w15.automate mixer (.setValueAtTime 1 now)
  let w17 := w16.automate feedback (.setValueAtTime 0 now)
  let w18 := w17.connect osc (.node gain)
  let w19 := w18.connect gain (.node dry)
  let w20 := w19.connect dry (.node mixer)
  let w21 := w20.connect gain (.node delay)
  let w22 := w21.connect delay (.node feedback)
  let w23 := w22.connect feedback (.node delay)
  let w24 := w23.connect delay (.node mixer)
  let w25 := w24.connect mixer .destination
  w25.oscStart osc

/-- The body of the `try` block of `setupAudio`, after `initializeAudio` succeeded. -/
def setupAudioBody (w : World) : Completion :=
  (stopExisting w).andThen buildVoice

/-- Models `setupAudio()`: `true` on success, `false` when anything inside threw. -/
def setupAudio (w : World) : Bool × World :=
  let r := initializeAudio w
  if r.1 then
    match setupAudioBody r.2 with
    | .normal w1 => (true, w1)
    | .throw e w1 => (false, w1.logCaught e)
  else (false, r.2)

/-- Models the callback `stopSound` hands to `setTimeout`: the halt of whatever the
module variable `oscillator` holds when the callback runs, inside `try`/`catch`. -/
def fadeDone (w : World) : Completion :=
  jsTryCatch
    (match w.oscillator with
      | none => .throw .typeError w
      | some o => (w.oscStop o).andThen fun w1 => .normal { w1 with oscillator := none })
    (fun e w1 => .normal (w1.logCaught e))

/-- Lines 115-118 of `stopSound`: linear ramps to 0 on the gains that exist, ending at
`now + fadeTime`. -/
def fadeGains (now : Rat) (w : World) : World :=
  let w1 :=
    match w.gainNode with
    | some g => w.automate g (.linearRampToValueAtTime 0 (now + fadeTime))
    | none => w
  let w2 :=
    match w1.dryGainNode with
    | some d => w1.automate d (.linearRampToValueAtTime 0 (now + fadeTime))
    | none => w1
  match w2.feedbackNode with
  | some f => w2.automate f (.linearRampToValueAtTime 0 (now + fadeTime))
  | none => w2

/-- Lines 120-131 of `stopSound`: when `oscillator` is set, its halt is handed to
`setTimeout` with a delay of `fadeTime * 1000` milliseconds. -/
def scheduleFadeDone (w : World) : World :=
  match w.oscillator with
  | some _ => (w.setTimeout .fadeDone (fadeTime * 1000)).2
  | none => w

/-- Lines 133-138 of `stopSound`: the current pad gets its idle colour back and
`currentPad` is reset. -/
def resetPadAppearance (w : World) : World :=
  match w.currentPad with
  | some pad =>
    { w with
      padColor := Function.update w.padColor pad .idle
      currentPad := none }
  | none => w

/-- Models `stopSound()`. -/
def stopSound (w : World) : Completion :=
  if !w.audioContext then .throw .typeError w
  else
    let now := w.currentTime
    .normal (clearModulation (resetPadAppearance (scheduleFadeDone (fadeGains now w))))

/-! ## Sound functions (`script-new.js`, lines 204-265) -/

/-- Models `playHighSiren()` (with `freq = 880`) and `playLowSiren()` (with `freq = 220`),
which differ only in that constant; `text` is the literal written to the label. -/
def playSiren (freq : Rat) (text : String) (w : World) : Completion :=
  if !w.audioContext then .throw .typeError w
  else
    let now := w.currentTime
    match w.oscillator with
    | none => .throw .typeError w
    | some o =>
      let w1 := w.automate o (.setValueAtTime freq now)
      match w1.gainNode with
      | none => .throw .typeError w1
      | some g =>
        let w2 := w1.automate g (.setValueAtTime (parseFloatOr (w1.knobValue .volume) (1 / 2)) now)
        let w3 : World := { w2 with knobValue := Function.update w2.knobValue .frequency (some freq) }
        let w4 := updateKnobRotation .frequency (some freq) 20 2000 w3
        .normal { w4 with label := Function.update w4.label .frequency text }

def playHighSiren (w : World) : Completion := playSiren 880 "880 Hz" w

def playLowSiren (w : World) : Completion := playSiren 220 "220 Hz" w

/-- Models `playFastMod()`. -/
def playFastMod (w : World) : Completion :=
  let w1 : World := { w with knobValue := Function.update w.knobValue .modSpeed (some 5) }
  let w2 := updateKnobRotation .modSpeed (some 5) 0 10 w1
  let w3 : World := { w2 with label := Function.update w2.label .modSpeed "5.0" }
  setupModulation w3

/-- Models `playEchoDub()`. -/
def playEchoDub (w : World) : Completion :=
  if !w.audioContext then .throw .typeError w
  else
    let now := w.currentTime
    match w.delayNode with
    | none => .throw .typeError w
    | some d =>
      let w1 := w.automate d (.setValueAtTime (8 / 10) now)
      match w1.feedbackNode with
      | none => .throw .typeError w1
      | some f =>
        let w2 := w1.automate f (.setValueAtTime (7 / 10) now)
        let w3 : World := { w2 with knobValue := Function.update w2.knobValue .delayTime (some (8 / 10)) }
        let w4 := updateKnobRotation .delayTime (some (8 / 10)) 0 1 w3
        let w5 : World := { w4 with knobValue := Function.update w4.knobValue .feedback (some (7 / 10)) }
        let w6 := updateKnobRotation .feedback (some (7 / 10)) 0 (9 / 10) w5
        let w7 : World := { w6 with label := Function.update w6.label .delayTime "0.8s" }
        .normal { w7 with label := Function.update w7.label .feedback "0.7" }

/-- The sound function bound to each pad by the `DOMContentLoaded` handler. -/
def soundFunction : PadId → World → Completion
  | .pad1 => playHighSiren
  | .pad2 => playLowSiren
  | .pad3 => playFastMod
  | .pad4 => playEchoDub

/-! ## Pads (`script-new.js`, lines 143-202) -/

/-- What `handleStart` does once the touch/mouse gate has let the event through. -/
def startPad (padId : PadId) (sound : World → Completion) (w : World) : Completion :=
  let stopped : Completion :=
    match w.currentPad with
    | some _ => stopSound w
    | none => .normal w
  stopped.andThen fun w1 =>
    let r := setupAudio w1
    if r.1 then
      jsTryCatch
        ((sound r.2).andThen fun w2 =>
          .normal
            { w2 with
              currentPad := some padId
              padColor := Function.update w2.padColor padId .active })
        (fun e w2 => stopSound (w2.logCaught e))
    else .normal r.2

/-- Lines 161-166 of `handleStart`: a touch event puts the pad in touch mode; a mouse
event on a pad in touch mode is dropped (`none`). -/
def touchGate (padId : PadId) (ty : EventType) (w : World) : Option World :=
  if ty.includesTouch then some { w with isTouch := Function.update w.isTouch padId true }
  else if w.isTouch padId then none
  else some w

/-- Models `handleStart(e)` in the closure of `initializePad(padId, soundFunction)`. -/
def handleStart (padId : PadId) (sound : World → Completion) (ty : EventType) (w : World) :
    Completion :=
  match touchGate padId ty w with
  | none => .normal w
  | some w0 => startPad padId sound w0

/-- Models `handleEnd(e)` in the closure of `initializePad(padId, soundFunction)`. -/
def handleEnd (padId : PadId) (ty : EventType) (w : World) : Completion :=
  if ty.includesTouch != w.isTouch padId then .normal w
  else
    (stopSound w).andThen fun w1 =>
      .normal { w1 with isTouch := Function.update w1.isTouch padId false }

/-! ## The same pieces in `script-old.js`

The old script reads its settings from `input` elements rather than from knob
`data-value` attributes; `World.knobValue` stands for the numeric value of the
input with the same id. -/

namespace OldScript

/-- Models lines 300-306 of `script-old.js` for a drag in progress: the value
assigned to `input.value` and the angle put into the knob's transform. -/
def handleMouseMove (min max startValue startY clientY : Rat) : Rat × Rat :=
  let deltaY := startY - clientY
  let range := max - min
  let newValue := startValue + (deltaY / 100) * range
  let clampedValue := Max.max min (Min.min max newValue)
  (clampedValue, (clampedValue - min) / (max - min) * 270 - 135)

/-- Models `stopSound()` of `script-old.js` (lines 180-190). -/
def stopSound (w : World) : Completion :=
  let halted : Completion :=
    match w.oscillator with
    | some o => (w.oscStop o).andThen fun w1 => .normal { w1 with oscillator := none }
    | none => .normal w
  halted.andThen fun w1 =>
    let w2 : World :=
      match w1.currentPad with
      | some pad =>
        { w1 with
          padColor := Function.update w1.padColor pad .idle
          currentPad := none }
      | none => w1
    .normal { w2 with isPlaying := false }

/-- Models one run of `modulateFrequency` of `script-old.js` (lines 350-366); a
`NaN` or infinite argument makes the ramp call throw a `TypeError`. -/
def modulateFrequency (w : World) : Completion :=
  if !w.audioContext then .throw .typeError w
  else
    let now := w.currentTime
    match w.oscillator with
    | none => .throw .typeError w
    | some o =>
      match w.knobValue .modSpeed, w.knobValue .frequency with
      | some speed, some freq =>
        if speed = 0 then .throw .typeError w
        else
          (w.exponentialRamp o (freq * 2) (now + 1 / (speed * 2))).andThen fun w1 =>
            .normal (w1.setTimeout (.rampDown freq (now + 1 / speed)) (1000 / (speed * 2))).2
      | _, _ => .throw .typeError w

/-- Models `setupModulation()` of `script-old.js` (lines 343-371). -/
def setupModulation (w : World) : Completion :=
  let modSpeed := w.knobValue .modSpeed
  let baseFreq := w.knobValue .frequency
  if !w.audioContext then .throw .typeError w
  else
    let now := w.currentTime
    match w.oscillator with
    | none => .throw .typeError w
    | some o =>
      (w.setValueAtTime o baseFreq now).andThen fun w1 =>
        match modSpeed with
        | some s =>
          if s > 0 then .normal (w1.setInterval .liveModulateFrequency (1000 / s)).2
          else .normal w1
        | none => .normal w1

end OldScript

/-! ## The page, events and runs -/

/-- What the page provides before the script runs. -/
structure Page where
  audioSupported : Bool
  waveform : Waveform
  knobValue : KnobId → Option Rat
  knobRotation : KnobId → Rat
  label : KnobId → String

/-- The world when the script has been loaded: module variables at their initial values. -/
def initialWorld (page : Page) : World where
  audioSupported := page.audioSupported
  currentTime := 0
  clock := 0
  nextNode := 0
  nextTimer := 1
  param := fun _ => []
  oscStatus := fun _ => .unstarted
  oscType := fun _ => none
  edges := []
  timers := []
  trace := []
  audioContext := false
  oscillator := none
  gainNode := none
  delayNode := none
  feedbackNode := none
  convolverNode := none
  dryGainNode := none
  wetGainNode := none
  mixerNode := none
  currentPad := none
  currentModulationInterval := none
  isPlaying := false
  isTouch := fun _ => false
  drag := fun _ => ⟨false, 0, none⟩
  listening := false
  waveform := page.waveform
  knobValue := page.knobValue
  knobRotation := page.knobRotation
  label := page.label
  padColor := fun _ => .page
  caught := []
  uncaught := []

/-- Models the `DOMContentLoaded` handler: pads and knobs are wired only when
`initializeAudio()` succeeded. -/
def domContentLoaded (w : World) : World :=
  let r := initializeAudio w
  if r.1 then { r.2 with listening := true } else r.2

/-- What can happen after loading: user input on a pad, a knob or the waveform
select, time passing, and a due timer firing. -/
inductive Event where
  | pad (padId : PadId) (ty : EventType)
  | knobDown (id : KnobId) (clientY : Rat)
  | knobMove (id : KnobId) (clientY : Rat)
  | knobUp (id : KnobId)
  | waveformChange (wf : Waveform)
  | advance (ms sec : Rat)
  | fire (id : Nat)

/-- Runs the callback of a timer. -/
def runAction : TimerAction → World → Completion
  | .fadeDone => fadeDone
  | .modulateFrequency baseFreq modSpeed => modulateFrequency baseFreq modSpeed
  | .rampDown baseFreq endTime => rampDown baseFreq endTime
  | .liveModulateFrequency => OldScript.modulateFrequency

/-- A timer fires only once its delay has elapsed; a one-shot timer is then
removed, a periodic one re-armed. -/
def fireTimer (id : Nat) (w : World) : Completion :=
  match w.timers.find? (fun t => t.id = id) with
  | none => .normal w
  | some t =>
    if w.clock < t.due then .normal w
    else
      let rest := w.timers.filter (fun u => u.id != id)
      let timers :=
        match t.period with
        | some p => rest ++ [{ t with due := w.clock + p }]
        | none => rest
      runAction t.action { w with timers := timers }

/-- The listener the page runs for one event. -/
def dispatch (e : Event) (w : World) : Completion :=
  match e with
  | .pad padId ty =>
    if !w.listening then .normal w
    else
      match ty with
      | .mousedown => handleStart padId (soundFunction padId) ty w
      | .touchstart => handleStart padId (soundFunction padId) ty w
      | _ => handleEnd padId ty w
  | .knobDown id clientY =>
    if !w.listening then .normal w else .normal (knobMouseDown id clientY w)
  | .knobMove id clientY =>
    if !w.listening then .normal w
    else handleMouseMove id (setupKnobControls id).1 (setupKnobControls id).2 clientY w
  | .knobUp id =>
    if !w.listening then .normal w else .normal (handleMouseUp id w)
  | .waveformChange wf =>
    let w1 : World := { w with waveform := wf }
    if !w.listening then .normal w1
    else
      match w1.oscillator with
      | some o => .normal (w1.setType o wf)
      | none => .normal w1
  | .advance ms sec =>
    if ms < 0 ∨ sec < 0 then .normal w
    else .normal { w with clock := w.clock + ms, currentTime := w.currentTime + sec }
  | .fire id => fireTimer id w

/-- One turn of the event loop; an exception that escapes the listener is reported
and the world it left behind stays. -/
def handle (e : Event) (w : World) : World :=
  match dispatch e w with
  | .normal w1 => w1
  | .throw err w1 => { w1 with uncaught := w1.uncaught ++ [err] }

/-- Runs a sequence of events, first to last. -/
def run (es : List Event) (w : World) : World :=
  es.foldl (fun acc e => handle e acc) w

/-- The worlds the page can be in. -/
inductive Reachable (page : Page) : World → Prop where
  | loaded : Reachable page (domContentLoaded (initialWorld page))
  | step (e : Event) (w : World) : Reachable page w → Reachable page (handle e w)

/-! ## A concrete page -/

/-- A page with audio support whose knobs carry mid-range `data-value` attributes. -/
def demoPage : Page where
  audioSupported := true
  waveform := .sine
  knobValue := fun
    | .frequency => some 440
    | .reverbAmount => some (3 / 10)
    | .roomSize => some (1 / 2)
    | .modSpeed => some 2
    | .delayTime => some (3 / 10)
    | .feedback => some (4 / 10)
    | .volume => some (1 / 2)
  knobRotation := fun _ => 0
  label := fun _ => ""

/-- The demo page right after loading. -/
def demoLoaded : World := domContentLoaded (initialWorld demoPage)

/-- The demo page with pad 1 pressed by the mouse: one voice is sounding. -/
def demoPlaying : World := run [.pad .pad1 .mousedown] demoLoaded

/-- A call to one of the three functions that touch the modulation timer, or the user
turning knobs in between. -/
inductive ModOp where
  | setupModulation
  | clearModulation
  | stopSound
  | turnKnobs (knobValue : KnobId → Option Rat)

/-- Runs one call; an exception leaves the world it was raised in. -/
def ModOp.apply : ModOp → World → World
  | .setupModulation, w => (DubSiren.setupModulation w).world
  | .clearModulation, w => DubSiren.clearModulation w
  | .stopSound, w => (DubSiren.stopSound w).world
  | .turnKnobs kv, w => { w with knobValue := kv }

/-- Runs a sequence of calls, first to last. -/
def runModOps (ops : List ModOp) (w : World) : World :=
  ops.foldl (fun acc op => op.apply acc) w

/-! ## A closed form for `buildVoice` -/

/-- The world `buildVoice` leaves behind, written out field by field: eight fresh
nodes numbered from `w.nextNode`, their initial settings, the eight connections and
the running oscillator. -/
def builtVoice (w : World) : World :=
  let n := w.nextNode
  let now := w.currentTime
  { w with
    nextNode := n + 8
    param := fun m =>
      if m = n then [.setValueAtTime (parseFloatOr (w.knobValue .frequency) 440) now]
      else if m = n + 1 then [.setValueAtTime (parseFloatOr (w.knobValue .volume) (1 / 2)) now]
      else if m = n + 2 then []
      else if m = n + 3 then [.setValueAtTime 0 now]
      else if m = n + 4 then []
      else if m = n + 5 then [.setValueAtTime 1 now]
      else if m = n + 6 then [.setValueAtTime 0 now]
      else if m = n + 7 then [.setValueAtTime 1 now]
      else w.param m
    oscStatus := fun m =>
      if m = n then .running
      else if n < m ∧ m < n + 8 then .unstarted
      else w.oscStatus m
    oscType := fun m =>
      if m = n then some w.waveform
      else if n < m ∧ m < n + 8 then none
      else w.oscType m
    edges := w.edges ++
      [(n, .node (n + 1)), (n + 1, .node (n + 5)), (n + 5, .node (n + 7)),
        (n + 1, .node (n + 2)), (n + 2, .node (n + 3)), (n + 3, .node (n + 2)),
        (n + 2, .node (n + 7)), (n + 7, .destination)]
    trace := w.trace ++
      [.createNode .oscillator n, .createNode .gain (n + 1), .createNode .delay (n + 2),
        .createNode .gain (n + 3), .createNode .convolver (n + 4), .createNode .gain (n + 5),
        .createNode .gain (n + 6), .createNode .gain (n + 7),
        .setType n w.waveform,
        .automate n (.setValueAtTime (parseFloatOr (w.knobValue .frequency) 440) now),
        .automate (n + 1) (.setValueAtTime (parseFloatOr (w.knobValue .volume) (1 / 2)) now),
        .automate (n + 5) (.setValueAtTime 1 now),
        .automate (n + 6) (.setValueAtTime 0 now),
        .automate (n + 7) (.setValueAtTime 1 now),
        .automate (n + 3) (.setValueAtTime 0 now),
        .connect n (.node (n + 1)), .connect (n + 1) (.node (n + 5)),
        .connect (n + 5) (.node (n + 7)), .connect (n + 1) (.node (n + 2)),
        .connect (n + 2) (.node (n + 3)), .connect (n + 3) (.node (n + 2)),
        .connect (n + 2) (.node (n + 7)), .connect (n + 7) .destination,
        .start n]
    oscillator := some n
    gainNode := some (n + 1)
    delayNode := some (n + 2)
    feedbackNode := some (n + 3)
    convolverNode := some (n + 4)
    dryGainNode := some (n + 5)
    wetGainNode := some (n + 6)
    mixerNode := some (n + 7) }

/-- The world after lines 52-57 of `setupAudio` when the halt succeeds. -/
def dropOscillator (w : World) : World :=
  match w.oscillator with
  | some old =>
    { w with
      oscStatus := Function.update w.oscStatus old .stopped
      trace := w.trace ++ [.stop old]
      oscillator := none }
  | none => w

/-! ## Invariants -/

/-- The seven companion nodes of the voice whose oscillator is `o`: `setupAudio` creates
the eight nodes in a row, so their identifiers are consecutive. -/
def VoiceWired (w : World) (o : Nat) : Prop :=
  w.gainNode = some (o + 1) ∧ w.delayNode = some (o + 2) ∧ w.feedbackNode = some (o + 3)
    ∧ w.convolverNode = some (o + 4) ∧ w.dryGainNode = some (o + 5)
    ∧ w.wetGainNode = some (o + 6) ∧ w.mixerNode = some (o + 7)

/-- What holds of every world the page can reach: handlers are registered only once the
audio context exists; the oscillator the script refers to is running and comes with its
companion nodes; no other oscillator is running; a pad shown as active is the current
pad; a pad is current only once the handlers are registered. -/
def Inv (w : World) : Prop :=
  (w.listening = true → w.audioContext = true)
    ∧ (∀ o, w.oscillator = some o →
        w.oscStatus o = .running ∧ VoiceWired w o ∧ w.audioContext = true)
    ∧ (∀ n, w.oscStatus n = .running → w.oscillator = some n)
    ∧ (∀ p, w.padColor p = .active → w.currentPad = some p)
    ∧ (∀ p, w.currentPad = some p → w.listening = true)

/-- What holds of the timers of every reachable world: handles are positive and below
the counter, no two pending timers share a handle, a pending periodic timer is the one
stored in `currentModulationInterval`, and nothing is pending before the context exists. -/
def TimerInv (w : World) : Prop :=
  0 < w.nextTimer
    ∧ (∀ t ∈ w.timers, 0 < t.id ∧ t.id < w.nextTimer)
    ∧ (w.timers.map Timer.id).Nodup
    ∧ (∀ t ∈ w.timers, t.period.isSome = true → w.currentModulationInterval = some t.id)
    ∧ (∀ id, w.currentModulationInterval = some id → 0 < id ∧ id < w.nextTimer)
    ∧ (w.audioContext = false → w.timers = [] ∧ w.currentModulationInterval = none)

/-- Two worlds that agree on everything `TimerInv` speaks about. -/
def SameTimers (w w1 : World) : Prop :=
  w1.timers = w.timers ∧ w1.nextTimer = w.nextTimer
    ∧ w1.currentModulationInterval = w.currentModulationInterval
    ∧ w1.audioContext = w.audioContext

/-- Two worlds that agree on everything `Inv` speaks about, and on the node counter. -/
def SameCore (w w1 : World) : Prop :=
  w1.listening = w.listening ∧ w1.audioContext = w.audioContext
    ∧ w1.oscillator = w.oscillator ∧ w1.oscStatus = w.oscStatus
    ∧ w1.gainNode = w.gainNode ∧ w1.delayNode = w.delayNode ∧ w1.feedbackNode = w.feedbackNode
    ∧ w1.convolverNode = w.convolverNode ∧ w1.dryGainNode = w.dryGainNode
    ∧ w1.wetGainNode = w.wetGainNode ∧ w1.mixerNode = w.mixerNode
    ∧ w1.padColor = w.padColor ∧ w1.currentPad = w.currentPad ∧ w1.nextNode = w.nextNode
    ∧ w1.isTouch = w.isTouch

/-! ## Frames for the knobs and the connection graph -/

/-- Two worlds that agree on the knobs' stored values and drag state, on the
connection graph and on the node counter. -/
def SamePanel (w w1 : World) : Prop :=
  w1.knobValue = w.knobValue ∧ w1.drag = w.drag ∧ w1.edges = w.edges
    ∧ w1.nextNode = w.nextNode

/-- Two worlds that agree on the knobs' drag state, on the connection graph and on the
node counter. -/
def SameBoard (w w1 : World) : Prop :=
  w1.drag = w.drag ∧ w1.edges = w.edges ∧ w1.nextNode = w.nextNode


/-! ## Knob values and their declared ranges -/

/-- The stored value of every knob is a number inside the range `setupKnobControls`
declares for it. -/
def KnobsInRange (w : World) : Prop :=
  ∀ k : KnobId, ∃ v : Rat, w.knobValue k = some v
    ∧ (setupKnobControls k).1 ≤ v ∧ v ≤ (setupKnobControls k).2

/-- Every drag in progress started from a numeric value. -/
def DragNumeric (w : World) : Prop :=
  ∀ k : KnobId, (w.drag k).isDragging = true → ∃ cv : Rat, (w.drag k).currentValue = some cv

/-- A clamped update of knob `id` with the raw value `raw`, as a drag step makes it, or
a call of the sound function of pad `p`. -/
inductive KnobOp where
  | drag (id : KnobId) (raw : Rat)
  | preset (p : PadId)

/-- Runs one step; an exception leaves the world it was raised in. -/
def KnobOp.apply : KnobOp → World → World
  | .drag id raw, w =>
    (updateValue id (setupKnobControls id).1 (setupKnobControls id).2 (some raw) w).world
  | .preset p, w => (soundFunction p w).world

/-- Runs a sequence of steps, first to last. -/
def runKnobOps (ops : List KnobOp) (w : World) : World :=
  ops.foldl (fun acc op => op.apply acc) w

/-- What holds of the knobs in every world reachable from a page whose knob values are
in range. -/
def KnobInv (w : World) : Prop := KnobsInRange w ∧ DragNumeric w

/-! ## The connection graph -/

/-- The nodes the eight module variables refer to. -/
def World.voiceNodes (w : World) : List Nat :=
  [w.oscillator, w.gainNode, w.delayNode, w.feedbackNode, w.convolverNode, w.dryGainNode,
    w.wetGainNode, w.mixerNode].reduceOption

/-- Node identifiers in use are below the node counter: those in the connection graph
and those the module variables hold. -/
def GraphInv (w : World) : Prop :=
  (∀ e ∈ w.edges, e.1 < w.nextNode ∧ ∀ m, e.2 = .node m → m < w.nextNode)
    ∧ ∀ m ∈ w.voiceNodes, m < w.nextNode

end DubSiren

/-! # Theorems -/

namespace DubSiren


/-! ## Frame lemmas -/

theorem setValueAtTime_some (w : World) (n : Nat) (v t : Rat) :
    w.setValueAtTime n (some v) t = .normal (w.automate n (.setValueAtTime v t)) := rfl

/-- A numeric value never makes `updateParameter` throw, and the call touches nothing
but parameter timelines and the trace. -/
theorem updateParameter_some_frame (id : KnobId) (v : Rat) (w : World) :
    ∃ w1, updateParameter id (some v) w = .normal w1
      ∧ w1.knobValue = w.knobValue ∧ w1.knobRotation = w.knobRotation ∧ w1.label = w.label
      ∧ w1.oscillator = w.oscillator ∧ w1.timers = w.timers ∧ w1.oscStatus = w.oscStatus := by
  unfold updateParameter
  split
  · exact ⟨w, rfl, rfl, rfl, rfl, rfl, rfl, rfl⟩
  · cases id <;> simp only [setValueAtTime_some, Option.map_some'] <;>
      (repeat' split) <;>
      simp [Completion.andThen, World.automate, setValueAtTime_some]

/-! ## C1 -/

/-- C1: for a knob with declared range `[min, max]`, `min ≤ max`, and a numeric raw
value `v`, `updateValue(v)` completes normally and the knob's stored value is exactly
`max(min, min(max, v))`: it lies in the range, is `max` when `v > max`, `min` when
`v < min` and `v` itself when `v` is in range.  The drag handler of `script-old.js`
assigns the same clamp of its computed value to the input. -/
theorem updateValue_stores_clamp (id : KnobId) (min max v : Rat) (w : World) (h : min ≤ max) :
    (updateValue id min max (some v) w).isNormal = true
      ∧ (updateValue id min max (some v) w).world.knobValue id
          = some (Max.max min (Min.min max v))
      ∧ min ≤ Max.max min (Min.min max v) ∧ Max.max min (Min.min max v) ≤ max
      ∧ (max < v → (updateValue id min max (some v) w).world.knobValue id = some max)
      ∧ (v < min → (updateValue id min max (some v) w).world.knobValue id = some min)
      ∧ (min ≤ v → v ≤ max → (updateValue id min max (some v) w).world.knobValue id = some v)
      ∧ ∀ startValue startY clientY : Rat,
          (OldScript.handleMouseMove min max startValue startY clientY).1
            = Max.max min (Min.min max (startValue + (startY - clientY) / 100 * (max - min))) := by
  have key : (updateValue id min max (some v) w).isNormal = true
      ∧ (updateValue id min max (some v) w).world.knobValue id
          = some (Max.max min (Min.min max v)) := by
    obtain ⟨w1, h1, hk, -⟩ := updateParameter_some_frame id (Max.max min (Min.min max v))
      (updateDisplay id (some (Max.max min (Min.min max v)))
        { w with knobValue := Function.update w.knobValue id (some (Max.max min (Min.min max v))) })
    have e : updateValue id min max (some v) w
        = .normal (updateKnobRotation id (some (Max.max min (Min.min max v))) min max w1) := by
      simp only [updateValue, clampedValue, Option.map_some']
      rw [h1]
      rfl
    rw [e]
    simp [Completion.isNormal, Completion.world, updateKnobRotation, hk, updateDisplay]
  refine ⟨key.1, key.2, le_max_left _ _, max_le h (min_le_left _ _), ?_, ?_, ?_, ?_⟩
  · intro hv
    rw [key.2, min_eq_left hv.le, max_eq_right h]
  · intro hv
    rw [key.2, max_eq_left ((min_le_right _ _).trans hv.le)]
  · intro h1 h2
    rw [key.2, min_eq_right h2, max_eq_right h1]
  · intro startValue startY clientY
    rfl

/-- Witness for C1: the frequency knob of the demo page, range `[20, 2000]`, raw value
5000, stores 2000. -/
theorem updateValue_stores_clamp_witness :
    (20 : Rat) ≤ 2000
      ∧ (updateValue .frequency 20 2000 (some 5000) demoLoaded).world.knobValue .frequency
          = some 2000 :=
  ⟨by norm_num,
    (updateValue_stores_clamp .frequency 20 2000 5000 demoLoaded (by norm_num)).2.2.2.2.1
      (by norm_num)⟩

/-! ## Preservation of the invariant -/

theorem inv_clearModulation (w : World) : Inv (clearModulation w) ↔ Inv w := by
  unfold clearModulation
  split
  · split <;> exact Iff.rfl
  · exact Iff.rfl

theorem inv_fadeGains (now : Rat) (w : World) : Inv (fadeGains now w) ↔ Inv w := by
  unfold fadeGains
  dsimp only
  repeat' split
  all_goals exact Iff.rfl

theorem inv_scheduleFadeDone (w : World) : Inv (scheduleFadeDone w) ↔ Inv w := by
  unfold scheduleFadeDone
  cases w.oscillator <;> exact Iff.rfl

theorem inv_resetPadAppearance (w : World) (h : Inv w) : Inv (resetPadAppearance w) := by
  unfold resetPadAppearance
  cases hp : w.currentPad with
  | none => exact h
  | some pad =>
    obtain ⟨h1, h2, h3, h4, h5⟩ := h
    refine ⟨h1, h2, h3, ?_, fun p h => by simp at h⟩
    intro p hact
    by_cases hpp : p = pad
    · subst hpp
      simp at hact
    · have := h4 p (by simpa [Function.update_noteq hpp] using hact)
      rw [hp] at this
      exact absurd (Option.some.inj this).symm hpp

theorem sameCore_refl (w : World) : SameCore w w := by
  simp [SameCore]

theorem sameCore_trans {w w1 w2 : World} (h1 : SameCore w w1) (h2 : SameCore w1 w2) :
    SameCore w w2 := by
  simp only [SameCore] at *
  simp [h1, h2]

theorem sameCore_inv {w w1 : World} (h : SameCore w w1) : Inv w ↔ Inv w1 := by
  obtain ⟨a1, a2, a3, a4, a5, a6, a7, a8, a9, a10, a11, a12, a13, -, -⟩ := h
  simp only [Inv, VoiceWired, a1, a2, a3, a4, a5, a6, a7, a8, a9, a10, a11, a12, a13]

theorem sameCore_setupModulation (w : World) : SameCore w (setupModulation w).world := by
  unfold setupModulation cancelInterval
  dsimp only
  repeat' split
  all_goals simp [SameCore, Completion.world, World.clearInterval, World.automate, World.setInterval]

theorem sameCore_updateParameter (id : KnobId) (v : Option Rat) (w : World) :
    SameCore w (updateParameter id v w).world := by
  unfold updateParameter
  cases v <;> cases id <;> dsimp only <;> (repeat' split) <;>
    simp [SameCore, Completion.world, World.automate, World.setValueAtTime, Completion.andThen]

theorem sameCore_updateValue (id : KnobId) (min max : Rat) (v : Option Rat) (w : World) :
    SameCore w (updateValue id min max v w).world := by
  unfold updateValue
  dsimp only
  have h := sameCore_updateParameter id (clampedValue min max v)
    (updateDisplay id (clampedValue min max v)
      { w with knobValue := Function.update w.knobValue id (clampedValue min max v) })
  revert h
  cases updateParameter id (clampedValue min max v)
    (updateDisplay id (clampedValue min max v)
      { w with knobValue := Function.update w.knobValue id (clampedValue min max v) }) with
  | normal w1 =>
    intro h
    cases hv : clampedValue min max v <;>
      simpa [SameCore, Completion.world, Completion.andThen, updateKnobRotation, updateDisplay, hv]
        using h
  | throw e w1 =>
    intro h
    simpa [SameCore, Completion.world, Completion.andThen, updateDisplay] using h

theorem sameCore_handleMouseMove (id : KnobId) (min max clientY : Rat) (w : World) :
    SameCore w (handleMouseMove id min max clientY w).world := by
  unfold handleMouseMove
  split
  · exact sameCore_refl w
  · exact sameCore_updateValue _ _ _ _ _

theorem sameCore_playSiren (freq : Rat) (text : String) (w : World) :
    SameCore w (playSiren freq text w).world := by
  unfold playSiren
  dsimp only
  repeat' split
  all_goals simp [SameCore, Completion.world, World.automate, updateKnobRotation]

theorem sameCore_playFastMod (w : World) : SameCore w (playFastMod w).world := by
  unfold playFastMod
  dsimp only
  refine sameCore_trans ?_ (sameCore_setupModulation _)
  simp [SameCore, updateKnobRotation]

theorem sameCore_playEchoDub (w : World) : SameCore w (playEchoDub w).world := by
  unfold playEchoDub
  dsimp only
  repeat' split
  all_goals simp [SameCore, Completion.world, World.automate, updateKnobRotation]

theorem sameCore_soundFunction (p : PadId) (w : World) :
    SameCore w (soundFunction p w).world := by
  cases p
  · exact sameCore_playSiren _ _ _
  · exact sameCore_playSiren _ _ _
  · exact sameCore_playFastMod _
  · exact sameCore_playEchoDub _

theorem sameCore_exponentialRamp (w : World) (n : Nat) (v t : Rat) :
    SameCore w (w.exponentialRamp n v t).world := by
  unfold World.exponentialRamp
  split <;> simp [SameCore, Completion.world, World.automate]

theorem sameCore_modulateFrequency (b m : Rat) (w : World) :
    SameCore w (modulateFrequency b m w).world := by
  unfold modulateFrequency World.exponentialRamp
  dsimp only
  repeat' split
  all_goals simp [SameCore, Completion.world, World.automate, World.setTimeout, Completion.andThen]

theorem sameCore_rampDown (b t : Rat) (w : World) : SameCore w (rampDown b t w).world := by
  unfold rampDown
  split
  · exact sameCore_refl w
  · exact sameCore_exponentialRamp _ _ _ _

theorem sameCore_oldModulateFrequency (w : World) :
    SameCore w (OldScript.modulateFrequency w).world := by
  unfold OldScript.modulateFrequency World.exponentialRamp
  dsimp only
  repeat' split
  all_goals simp [SameCore, Completion.world, World.automate, World.setTimeout, Completion.andThen]

/-- The fade callback never throws: it halts and drops a running oscillator, and
otherwise logs the error it caught. -/
theorem fadeDone_cases (w : World) :
    (∃ o, w.oscillator = some o ∧ w.oscStatus o = .running
        ∧ fadeDone w = .normal
            { w with
              oscStatus := Function.update w.oscStatus o .stopped
              trace := w.trace ++ [.stop o]
              oscillator := none })
      ∨ (w.oscillator = none ∧ fadeDone w = .normal (w.logCaught .typeError))
      ∨ (∃ o, w.oscillator = some o ∧ w.oscStatus o ≠ .running
        ∧ fadeDone w = .normal (w.logCaught .invalidStateError)) := by
  unfold fadeDone
  cases ho : w.oscillator with
  | none => exact Or.inr (Or.inl ⟨rfl, rfl⟩)
  | some o =>
    by_cases hs : w.oscStatus o = .running
    · refine Or.inl ⟨o, rfl, hs, ?_⟩
      simp [World.oscStop, hs, Completion.andThen, jsTryCatch]
    · refine Or.inr (Or.inr ⟨o, rfl, hs, ?_⟩)
      simp [World.oscStop, hs, Completion.andThen, jsTryCatch]

theorem fadeDone_inv (w : World) (h : Inv w) : Inv (fadeDone w).world := by
  rcases fadeDone_cases w with ⟨o, ho, hs, e⟩ | ⟨-, e⟩ | ⟨o, -, -, e⟩
  · rw [e]
    obtain ⟨h1, h2, h3, h4, h5⟩ := h
    refine ⟨h1, ?_, ?_, h4, h5⟩
    · intro o1 h
      simp [Completion.world] at h
    · intro n hn
      simp only [Completion.world] at hn
      by_cases hno : n = o
      · subst hno
        simp at hn
      · rw [Function.update_noteq hno] at hn
        have := h3 n hn
        rw [ho] at this
        exact absurd (Option.some.inj this).symm hno
  · rw [e]
    exact h
  · rw [e]
    exact h

/-! ### The closed form of `buildVoice` -/

theorem buildVoice_eq (w : World) : buildVoice w = .normal (builtVoice w) := by
  simp (disch := omega) only [buildVoice, builtVoice, World.createNode, World.setType, World.automate,
    World.connect, World.oscStart, Function.update_same, Function.update_noteq, if_true,
    List.append_assoc, List.nil_append, List.cons_append, List.singleton_append, Nat.add_assoc, Nat.reduceAdd]
  congr 1
  congr 1
  · funext m
    rcases (by omega : m = w.nextNode ∨ m = w.nextNode + 1 ∨ m = w.nextNode + 2 ∨ m = w.nextNode + 3
        ∨ m = w.nextNode + 4 ∨ m = w.nextNode + 5 ∨ m = w.nextNode + 6 ∨ m = w.nextNode + 7
        ∨ (m < w.nextNode ∨ w.nextNode + 7 < m)) with h | h | h | h | h | h | h | h | h
    all_goals first
      | (subst h; simp (disch := omega) only [Function.update_same, Function.update_noteq, if_neg, if_pos, if_true])
      | simp (disch := omega) only [Function.update_same, Function.update_noteq, if_neg, if_pos, if_true]
  · funext m
    rcases (by omega : m = w.nextNode ∨ m = w.nextNode + 1 ∨ m = w.nextNode + 2 ∨ m = w.nextNode + 3
        ∨ m = w.nextNode + 4 ∨ m = w.nextNode + 5 ∨ m = w.nextNode + 6 ∨ m = w.nextNode + 7
        ∨ (m < w.nextNode ∨ w.nextNode + 7 < m)) with h | h | h | h | h | h | h | h | h
    all_goals first
      | (subst h; simp (disch := omega) only [Function.update_same, Function.update_noteq, if_neg, if_pos, if_true])
      | simp (disch := omega) only [Function.update_same, Function.update_noteq, if_neg, if_pos, if_true]
  · funext m
    rcases (by omega : m = w.nextNode ∨ m = w.nextNode + 1 ∨ m = w.nextNode + 2 ∨ m = w.nextNode + 3
        ∨ m = w.nextNode + 4 ∨ m = w.nextNode + 5 ∨ m = w.nextNode + 6 ∨ m = w.nextNode + 7
        ∨ (m < w.nextNode ∨ w.nextNode + 7 < m)) with h | h | h | h | h | h | h | h | h
    all_goals first
      | (subst h; simp (disch := omega) only [Function.update_same, Function.update_noteq, if_neg, if_pos, if_true])
      | simp (disch := omega) only [Function.update_same, Function.update_noteq, if_neg, if_pos, if_true]

/-! ### `setupAudio` -/

theorem stopExisting_eq (w : World) (h : ∀ o, w.oscillator = some o → w.oscStatus o = .running) :
    stopExisting w = .normal (dropOscillator w) := by
  unfold stopExisting dropOscillator
  cases ho : w.oscillator with
  | none => rfl
  | some o => simp [World.oscStop, h o ho, Completion.andThen]

theorem dropOscillator_inv (w : World) (h : Inv w) :
    Inv (dropOscillator w) ∧ (dropOscillator w).oscillator = none
      ∧ ∀ n, (dropOscillator w).oscStatus n ≠ .running := by
  obtain ⟨h1, h2, h3, h4, h5⟩ := h
  unfold dropOscillator
  cases ho : w.oscillator with
  | none =>
    refine ⟨⟨h1, h2, h3, h4, h5⟩, ho, ?_⟩
    intro n hn
    have := h3 n hn
    rw [ho] at this
    exact Option.noConfusion this
  | some o =>
    have key : ∀ n, Function.update w.oscStatus o OscStatus.stopped n ≠ .running := by
      intro n hn
      by_cases hno : n = o
      · subst hno
        simp at hn
      · rw [Function.update_noteq hno] at hn
        have := h3 n hn
        rw [ho] at this
        exact hno (Option.some.inj this).symm
    refine ⟨⟨h1, ?_, ?_, h4, h5⟩, rfl, key⟩
    · intro o1 h
      simp at h
    · intro n hn
      exact absurd hn (key n)

theorem builtVoice_inv (w : World) (h : Inv w) (hn : ∀ n, w.oscStatus n ≠ .running)
    (hc : w.audioContext = true) : Inv (builtVoice w) := by
  obtain ⟨h1, -, -, h4, h5⟩ := h
  refine ⟨h1, ?_, ?_, h4, h5⟩
  · intro o ho
    simp only [builtVoice, Option.some.injEq] at ho
    subst ho
    simp [builtVoice, VoiceWired, hc]
  · intro n hrun
    simp only [builtVoice] at hrun ⊢
    by_cases h0 : n = w.nextNode
    · rw [h0]
    · rw [if_neg h0] at hrun
      split_ifs at hrun
      exact absurd hrun (hn n)

/-- When the context exists and the invariant holds, `setupAudio` succeeds and leaves
the closed form of the new voice on top of the world without the old oscillator. -/
theorem setupAudio_eq (w : World) (h : Inv w) (hc : w.audioContext = true) :
    setupAudio w = (true, builtVoice (dropOscillator w)) := by
  have e := stopExisting_eq w (fun o ho => (h.2.1 o ho).1)
  simp [setupAudio, initializeAudio, hc, setupAudioBody, e, Completion.andThen, buildVoice_eq]

theorem setupAudio_inv (w : World) (h : Inv w) : Inv (setupAudio w).2 := by
  have body : ∀ u : World, Inv u → u.audioContext = true →
      Inv (match setupAudioBody u with
        | .normal w1 => (true, w1)
        | .throw e w1 => (false, w1.logCaught e)).2 := by
    intro u hu hcu
    have hcd : (dropOscillator u).audioContext = true := by
      unfold dropOscillator
      split <;> exact hcu
    unfold setupAudioBody
    have e := stopExisting_eq u (fun o h => (hu.2.1 o h).1)
    simp only [e, Completion.andThen, buildVoice_eq]
    exact builtVoice_inv _ (dropOscillator_inv u hu).1 (dropOscillator_inv u hu).2.2 hcd
  unfold setupAudio initializeAudio
  by_cases hc : w.audioContext = true
  · simp only [hc, if_true]
    exact body w h hc
  · by_cases hs : w.audioSupported = true
    · simp only [hc, hs, if_true, if_false, Bool.false_eq_true]
      refine body _ ?_ rfl
      obtain ⟨-, h2, h3, h4, h5⟩ := h
      refine ⟨fun _ => rfl, ?_, h3, h4, h5⟩
      intro o ho
      exact ⟨(h2 o ho).1, (h2 o ho).2.1, rfl⟩
    · simp only [hc, hs, if_false, Bool.false_eq_true]
      exact h

theorem stopSound_inv (w : World) (h : Inv w) : Inv (stopSound w).world := by
  unfold stopSound
  split
  · exact h
  · simp only [Completion.world, inv_clearModulation]
    exact inv_resetPadAppearance _ ((inv_scheduleFadeDone _).2 ((inv_fadeGains _ _).2 h))

/-! ### Pads, timers and the event loop -/

theorem stopSound_eq (w : World) (hc : w.audioContext = true) :
    stopSound w
      = .normal (clearModulation (resetPadAppearance (scheduleFadeDone (fadeGains w.currentTime w)))) := by
  simp [stopSound, hc]

theorem sameCore_clearModulation (w : World) : SameCore w (clearModulation w) := by
  unfold clearModulation
  repeat' split
  all_goals simp [SameCore, World.clearInterval]

theorem sameCore_scheduleFadeDone (w : World) : SameCore w (scheduleFadeDone w) := by
  unfold scheduleFadeDone
  split <;> simp [SameCore, World.setTimeout]

theorem sameCore_fadeGains (now : Rat) (w : World) : SameCore w (fadeGains now w) := by
  unfold fadeGains
  dsimp only
  repeat' split
  all_goals simp [SameCore, World.automate]

theorem resetPadAppearance_fields (w : World) :
    (resetPadAppearance w).currentPad = none
      ∧ (resetPadAppearance w).audioContext = w.audioContext
      ∧ (resetPadAppearance w).listening = w.listening
      ∧ (resetPadAppearance w).isTouch = w.isTouch
      ∧ (resetPadAppearance w).oscillator = w.oscillator
      ∧ (resetPadAppearance w).oscStatus = w.oscStatus
      ∧ (resetPadAppearance w).nextNode = w.nextNode := by
  unfold resetPadAppearance
  cases h : w.currentPad <;> simp [h]

/-- With a context, `stopSound` completes normally; it resets `currentPad` and leaves
the oscillator, every oscillator's status and the node counter alone. -/
theorem stopSound_fields (w : World) (hc : w.audioContext = true) :
    ∃ w1, stopSound w = .normal w1 ∧ w1.currentPad = none ∧ w1.audioContext = true
      ∧ w1.listening = w.listening ∧ w1.isTouch = w.isTouch ∧ w1.oscillator = w.oscillator
      ∧ w1.oscStatus = w.oscStatus ∧ w1.nextNode = w.nextNode := by
  refine ⟨_, stopSound_eq w hc, ?_⟩
  obtain ⟨c1, c2, c3, c4, -, -, -, -, -, -, -, -, c13, c14, c15⟩ :=
    sameCore_clearModulation (resetPadAppearance (scheduleFadeDone (fadeGains w.currentTime w)))
  obtain ⟨r1, r2, r3, r4, r5, r6, r7⟩ :=
    resetPadAppearance_fields (scheduleFadeDone (fadeGains w.currentTime w))
  obtain ⟨s1, s2, s3, s4, -, -, -, -, -, -, -, -, -, s14, s15⟩ :=
    sameCore_scheduleFadeDone (fadeGains w.currentTime w)
  obtain ⟨f1, f2, f3, f4, -, -, -, -, -, -, -, -, -, f14, f15⟩ := sameCore_fadeGains w.currentTime w
  refine ⟨by rw [c13, r1], by rw [c2, r2, s2, f2, hc], by rw [c1, r3, s1, f1],
    by rw [c15, r4, s15, f15], by rw [c3, r5, s3, f3], by rw [c4, r6, s4, f4],
    by rw [c14, r7, s14, f14]⟩

theorem dropOscillator_fields (w : World) :
    (dropOscillator w).nextNode = w.nextNode ∧ (dropOscillator w).currentPad = w.currentPad
      ∧ (dropOscillator w).audioContext = w.audioContext
      ∧ (dropOscillator w).listening = w.listening ∧ (dropOscillator w).isTouch = w.isTouch
      ∧ (dropOscillator w).padColor = w.padColor := by
  unfold dropOscillator
  cases w.oscillator <;> simp

theorem setupModulation_normal (w : World) (o : Nat) (hc : w.audioContext = true)
    (ho : w.oscillator = some o) : ∃ w1, setupModulation w = .normal w1 := by
  have e1 : ∀ id, (w.clearInterval id).audioContext = w.audioContext := fun _ => rfl
  have e2 : ∀ id, (w.clearInterval id).oscillator = w.oscillator := fun _ => rfl
  unfold setupModulation cancelInterval
  dsimp only
  repeat' split
  all_goals simp_all

theorem soundFunction_normal (p : PadId) (w : World) (o : Nat) (hc : w.audioContext = true)
    (ho : w.oscillator = some o) (hv : VoiceWired w o) :
    ∃ w1, soundFunction p w = .normal w1 := by
  obtain ⟨hg, hd, hf, -⟩ := hv
  cases p
  · exact ⟨_, by simp [soundFunction, playHighSiren, playSiren, hc, ho, hg, World.automate]; rfl⟩
  · exact ⟨_, by simp [soundFunction, playLowSiren, playSiren, hc, ho, hg, World.automate]; rfl⟩
  · simp only [soundFunction, playFastMod]
    exact setupModulation_normal _ o hc ho
  · exact ⟨_, by simp [soundFunction, playEchoDub, hc, hd, hf, World.automate]; rfl⟩

/-- How `startPad` runs in a world with a context that satisfies the invariant: the
optional `stopSound`, then `setupAudio` on its result, then the sound function, none of
which throws. -/
theorem startPad_eq (padId : PadId) (w : World) (h : Inv w) (hc : w.audioContext = true) :
    ∃ w1 w3, (match w.currentPad with
          | some _ => stopSound w
          | none => Completion.normal w) = .normal w1
      ∧ Inv w1 ∧ w1.currentPad = none ∧ w1.audioContext = true ∧ w1.listening = w.listening
      ∧ w1.isTouch = w.isTouch ∧ w1.oscillator = w.oscillator ∧ w1.oscStatus = w.oscStatus
      ∧ w1.nextNode = w.nextNode
      ∧ soundFunction padId (builtVoice (dropOscillator w1)) = .normal w3
      ∧ SameCore (builtVoice (dropOscillator w1)) w3
      ∧ startPad padId (soundFunction padId) w
          = .normal
              { w3 with
                currentPad := some padId
                padColor := Function.update w3.padColor padId .active } := by
  have step1 : ∃ w1, (match w.currentPad with
          | some _ => stopSound w
          | none => Completion.normal w) = .normal w1
      ∧ Inv w1 ∧ w1.currentPad = none ∧ w1.audioContext = true ∧ w1.listening = w.listening
      ∧ w1.isTouch = w.isTouch ∧ w1.oscillator = w.oscillator ∧ w1.oscStatus = w.oscStatus
      ∧ w1.nextNode = w.nextNode := by
    cases hp : w.currentPad with
    | none => exact ⟨w, rfl, h, hp, hc, rfl, rfl, rfl, rfl, rfl⟩
    | some a =>
      obtain ⟨w1, e, f⟩ := stopSound_fields w hc
      refine ⟨w1, e, ?_, f⟩
      have := stopSound_inv w h
      rwa [e] at this
  obtain ⟨w1, e1, i1, p1, c1, l1, t1, o1, s1, n1⟩ := step1
  have hd := dropOscillator_inv w1 i1
  have hb : (builtVoice (dropOscillator w1)).audioContext = true := by
    have : (dropOscillator w1).audioContext = w1.audioContext := by
      unfold dropOscillator
      split <;> rfl
    show (dropOscillator w1).audioContext = true
    rw [this, c1]
  obtain ⟨w3, e3⟩ := soundFunction_normal padId (builtVoice (dropOscillator w1))
    (dropOscillator w1).nextNode hb rfl (by simp [builtVoice, VoiceWired])
  have sc : SameCore (builtVoice (dropOscillator w1)) w3 := by
    have := sameCore_soundFunction padId (builtVoice (dropOscillator w1))
    rwa [e3] at this
  refine ⟨w1, w3, e1, i1, p1, c1, l1, t1, o1, s1, n1, e3, sc, ?_⟩
  unfold startPad
  simp only [e1, Completion.andThen, setupAudio_eq w1 i1 c1, if_true, e3, jsTryCatch]

theorem startPad_inv (padId : PadId) (w : World) (h : Inv w) (hl : w.listening = true) :
    Inv (startPad padId (soundFunction padId) w).world := by
  have hc := h.1 hl
  obtain ⟨w1, w3, -, i1, p1, c1, l1, -, -, -, -, -, sc, e⟩ := startPad_eq padId w h hc
  rw [e]
  have hd := dropOscillator_inv w1 i1
  have hcd : (dropOscillator w1).audioContext = true := by
    rw [(dropOscillator_fields w1).2.2.1]
    exact c1
  have i3 : Inv w3 := (sameCore_inv sc).1 (builtVoice_inv _ hd.1 hd.2.2 hcd)
  have p3 : w3.currentPad = none := by
    obtain ⟨-, -, -, -, -, -, -, -, -, -, -, -, c13, -, -⟩ := sc
    rw [c13]
    show (dropOscillator w1).currentPad = none
    unfold dropOscillator
    split <;> exact p1
  have l3 : w3.listening = true := by
    obtain ⟨c1, -⟩ := sc
    rw [c1]
    show (dropOscillator w1).listening = true
    unfold dropOscillator
    split <;> exact l1.trans hl
  obtain ⟨h1, h2, h3, h4, h5⟩ := i3
  refine ⟨h1, h2, h3, ?_, fun _ _ => l3⟩
  intro p hact
  simp only [Completion.world] at hact ⊢
  by_cases hpp : p = padId
  · rw [hpp]
  · rw [Function.update_noteq hpp] at hact
    have := h4 p hact
    rw [p3] at this
    exact Option.noConfusion this

theorem handleStart_inv (padId : PadId) (ty : EventType) (w : World) (h : Inv w)
    (hl : w.listening = true) :
    Inv (handleStart padId (soundFunction padId) ty w).world := by
  unfold handleStart touchGate
  split
  · exact h
  · rename_i w0 hw0
    split at hw0
    · cases hw0
      exact startPad_inv padId _ h hl
    · split at hw0
      · exact Option.noConfusion hw0
      · cases hw0
        exact startPad_inv padId w h hl

theorem handleEnd_inv (padId : PadId) (ty : EventType) (w : World) (h : Inv w) :
    Inv (handleEnd padId ty w).world := by
  unfold handleEnd
  split
  · exact h
  · have := stopSound_inv w h
    revert this
    cases stopSound w with
    | normal w1 => exact fun h1 => h1
    | throw e w1 => exact fun h1 => h1

theorem runAction_inv (a : TimerAction) (w : World) (h : Inv w) : Inv (runAction a w).world := by
  cases a with
  | fadeDone => exact fadeDone_inv w h
  | modulateFrequency b m => exact (sameCore_inv (sameCore_modulateFrequency b m w)).1 h
  | rampDown b t => exact (sameCore_inv (sameCore_rampDown b t w)).1 h
  | liveModulateFrequency => exact (sameCore_inv (sameCore_oldModulateFrequency w)).1 h

theorem fireTimer_inv (id : Nat) (w : World) (h : Inv w) : Inv (fireTimer id w).world := by
  unfold fireTimer
  split
  · exact h
  · split
    · exact h
    · exact runAction_inv _ _ h

theorem dispatch_inv (e : Event) (w : World) (h : Inv w) : Inv (dispatch e w).world := by
  cases e with
  | pad padId ty =>
    simp only [dispatch]
    by_cases hl : w.listening = true
    · simp only [hl, Bool.not_true, Bool.false_eq_true, if_false]
      cases ty
      · exact handleStart_inv _ _ _ h hl
      · exact handleEnd_inv _ _ _ h
      · exact handleEnd_inv _ _ _ h
      · exact handleStart_inv _ _ _ h hl
      · exact handleEnd_inv _ _ _ h
    · simp only [hl, Bool.not_false, if_true]
      simpa [Completion.world] using h
  | knobDown id clientY =>
    simp only [dispatch]
    split <;> exact h
  | knobMove id clientY =>
    simp only [dispatch]
    split
    · exact h
    · exact (sameCore_inv (sameCore_handleMouseMove _ _ _ _ w)).1 h
  | knobUp id =>
    simp only [dispatch]
    split <;> exact h
  | waveformChange wf =>
    simp only [dispatch]
    split
    · exact h
    · split <;> exact h
  | advance ms sec =>
    simp only [dispatch]
    split <;> exact h
  | fire id => exact fireTimer_inv id w h

theorem handle_inv (e : Event) (w : World) (h : Inv w) : Inv (handle e w) := by
  have := dispatch_inv e w h
  unfold handle
  revert this
  cases dispatch e w with
  | normal w1 => exact fun h1 => h1
  | throw err w1 => exact fun h1 => h1

theorem loaded_inv (page : Page) : Inv (domContentLoaded (initialWorld page)) := by
  unfold domContentLoaded initializeAudio
  cases hs : page.audioSupported <;>
    simp [initialWorld, hs, Inv, World.logCaught]

/-- Every world the page can reach satisfies the invariant. -/
theorem reachable_inv (page : Page) (w : World) (h : Reachable page w) : Inv w := by
  induction h with
  | loaded => exact loaded_inv page
  | step e w _ ih => exact handle_inv e w ih

/-! ### The trace only grows -/

theorem reachable_run (page : Page) (es : List Event) (w : World) (h : Reachable page w) :
    Reachable page (run es w) := by
  induction es generalizing w with
  | nil => exact h
  | cons e es ih => exact ih (handle e w) (Reachable.step e w h)

/-! ## C2 -/

theorem sameTimers_refl (w : World) : SameTimers w w := ⟨rfl, rfl, rfl, rfl⟩

theorem sameTimers_trans {w w1 w2 : World} (h1 : SameTimers w w1) (h2 : SameTimers w1 w2) :
    SameTimers w w2 := by
  simp only [SameTimers] at *
  simp [h1, h2]

theorem sameTimers_inv {w w1 : World} (h : SameTimers w w1) : TimerInv w ↔ TimerInv w1 := by
  obtain ⟨a1, a2, a3, a4⟩ := h
  simp only [TimerInv, a1, a2, a3, a4]

theorem sameTimers_updateParameter (id : KnobId) (v : Option Rat) (w : World) :
    SameTimers w (updateParameter id v w).world := by
  unfold updateParameter
  cases v <;> cases id <;> dsimp only <;> (repeat' split) <;>
    simp [SameTimers, Completion.world, World.automate, World.setValueAtTime, Completion.andThen]

theorem sameTimers_updateValue (id : KnobId) (min max : Rat) (v : Option Rat) (w : World) :
    SameTimers w (updateValue id min max v w).world := by
  unfold updateValue
  dsimp only
  have h := sameTimers_updateParameter id (clampedValue min max v)
    (updateDisplay id (clampedValue min max v)
      { w with knobValue := Function.update w.knobValue id (clampedValue min max v) })
  revert h
  cases updateParameter id (clampedValue min max v)
    (updateDisplay id (clampedValue min max v)
      { w with knobValue := Function.update w.knobValue id (clampedValue min max v) }) with
  | normal w1 =>
    intro h
    cases hv : clampedValue min max v <;>
      simpa [SameTimers, Completion.world, Completion.andThen, updateKnobRotation, updateDisplay,
        hv] using h
  | throw e w1 =>
    intro h
    simpa [SameTimers, Completion.world, Completion.andThen, updateDisplay] using h

theorem sameTimers_handleMouseMove (id : KnobId) (min max clientY : Rat) (w : World) :
    SameTimers w (handleMouseMove id min max clientY w).world := by
  unfold handleMouseMove
  split
  · exact sameTimers_refl w
  · exact sameTimers_updateValue _ _ _ _ _

theorem sameTimers_playSiren (freq : Rat) (text : String) (w : World) :
    SameTimers w (playSiren freq text w).world := by
  unfold playSiren
  dsimp only
  repeat' split
  all_goals simp [SameTimers, Completion.world, World.automate, updateKnobRotation]

theorem sameTimers_playEchoDub (w : World) : SameTimers w (playEchoDub w).world := by
  unfold playEchoDub
  dsimp only
  repeat' split
  all_goals simp [SameTimers, Completion.world, World.automate, updateKnobRotation]

theorem sameTimers_rampDown (b t : Rat) (w : World) : SameTimers w (rampDown b t w).world := by
  unfold rampDown World.exponentialRamp
  repeat' split
  all_goals simp [SameTimers, Completion.world, World.automate]

theorem sameTimers_fadeGains (now : Rat) (w : World) : SameTimers w (fadeGains now w) := by
  unfold fadeGains
  dsimp only
  repeat' split
  all_goals simp [SameTimers, World.automate]

theorem sameTimers_resetPadAppearance (w : World) : SameTimers w (resetPadAppearance w) := by
  unfold resetPadAppearance
  split <;> simp [SameTimers]

theorem sameTimers_dropOscillator (w : World) : SameTimers w (dropOscillator w) := by
  unfold dropOscillator
  split <;> simp [SameTimers]

theorem sameTimers_builtVoice (w : World) : SameTimers w (builtVoice w) := by
  simp [SameTimers, builtVoice]

theorem sameTimers_fadeDone (w : World) : SameTimers w (fadeDone w).world := by
  rcases fadeDone_cases w with ⟨o, -, -, e⟩ | ⟨-, e⟩ | ⟨o, -, -, e⟩ <;> rw [e] <;>
    simp [SameTimers, Completion.world, World.logCaught]

theorem timerInv_setTimeout (w : World) (a : TimerAction) (delay : Rat) (h : TimerInv w)
    (hc : w.audioContext = true) : TimerInv (w.setTimeout a delay).2 := by
  obtain ⟨h1, h2, h3, h4, h5, h6⟩ := h
  refine ⟨Nat.succ_pos _, ?_, ?_, ?_, ?_, ?_⟩
  · intro t ht
    simp only [World.setTimeout, List.mem_append, List.mem_singleton] at ht
    rcases ht with ht | rfl
    · exact ⟨(h2 t ht).1, Nat.lt_succ_of_lt (h2 t ht).2⟩
    · exact ⟨h1, Nat.lt_succ_self _⟩
  · simp only [World.setTimeout, List.map_append, List.map_cons, List.map_nil]
    refine List.Nodup.append h3 (List.nodup_singleton _) ?_
    intro x hx hx2
    simp only [List.mem_singleton] at hx2
    obtain ⟨t, ht, e⟩ := List.mem_map.1 hx
    have := (h2 t ht).2
    omega
  · intro t ht hs
    simp only [World.setTimeout, List.mem_append, List.mem_singleton] at ht
    rcases ht with ht | rfl
    · exact h4 t ht hs
    · simp at hs
  · intro id hid
    have := h5 id hid
    exact ⟨this.1, Nat.lt_succ_of_lt this.2⟩
  · intro hcf
    exact absurd hc (by simp [show w.audioContext = false from hcf])

theorem timerInv_clearInterval (w : World) (id : Nat) (h : TimerInv w) :
    TimerInv (w.clearInterval id) := by
  obtain ⟨h1, h2, h3, h4, h5, h6⟩ := h
  refine ⟨h1, ?_, ?_, ?_, h5, ?_⟩
  · intro t ht
    exact h2 t (List.mem_of_mem_filter ht)
  · exact (List.filter_sublist _).map _ |>.nodup h3
  · intro t ht hs
    exact h4 t (List.mem_of_mem_filter ht) hs
  · intro hcf
    have := h6 hcf
    simp only [World.clearInterval, this.1, List.filter_nil]
    exact ⟨trivial, this.2⟩

theorem intervals_eq_nil_iff (w : World) :
    w.intervals = [] ↔ ∀ t ∈ w.timers, t.period.isSome = false := by
  simp [World.intervals, List.filter_eq_nil_iff]

theorem truthyHandle_of_inv (w : World) (h : TimerInv w) (id : Nat)
    (hh : w.currentModulationInterval = some id) : truthyHandle (some id) = true := by
  have := (h.2.2.2.2.1 id hh).1
  simp [truthyHandle]
  omega

/-- After lines 269-271 no periodic timer is pending; nothing else changes but the
trace. -/
theorem cancelInterval_spec (w : World) (h : TimerInv w) :
    TimerInv (cancelInterval w) ∧ (cancelInterval w).intervals = []
      ∧ (cancelInterval w).currentModulationInterval = w.currentModulationInterval
      ∧ (cancelInterval w).nextTimer = w.nextTimer
      ∧ (cancelInterval w).audioContext = w.audioContext
      ∧ (cancelInterval w).oscillator = w.oscillator
      ∧ (cancelInterval w).knobValue = w.knobValue
      ∧ (cancelInterval w).clock = w.clock
      ∧ (cancelInterval w).currentTime = w.currentTime
      ∧ (cancelInterval w).param = w.param
      ∧ (cancelInterval w).timers
          = w.timers.filter (fun t => decide (some t.id ≠ w.currentModulationInterval)) := by
  have hall := h
  obtain ⟨h1, h2, h3, h4, h5, h6⟩ := h
  unfold cancelInterval
  cases hh : w.currentModulationInterval with
  | none =>
    refine ⟨hall, (intervals_eq_nil_iff w).2 ?_, hh, rfl, rfl, rfl, rfl, rfl, rfl, rfl, ?_⟩
    · intro t ht
      cases hs : t.period.isSome with
      | false => rfl
      | true =>
        have := h4 t ht hs
        rw [hh] at this
        exact Option.noConfusion this
    · simp [truthyHandle]
  | some id =>
    have htr := truthyHandle_of_inv w hall id hh
    rw [if_pos htr]
    refine ⟨timerInv_clearInterval w id hall, (intervals_eq_nil_iff _).2 ?_, hh, rfl, rfl, rfl,
      rfl, rfl, rfl, rfl, ?_⟩
    · intro t ht
      cases hs : t.period.isSome with
      | false => rfl
      | true =>
        have hm := List.mem_filter.1 ht
        have := h4 t hm.1 hs
        rw [hh] at this
        have e : id = t.id := Option.some.inj this
        simp [e] at hm
    · show List.filter (fun t => t.id != id) w.timers = _
      congr 1
      funext t
      by_cases e : t.id = id <;> simp [e]

theorem clearModulation_spec (w : World) (h : TimerInv w) :
    TimerInv (clearModulation w) ∧ (clearModulation w).intervals = []
      ∧ (clearModulation w).currentModulationInterval = none := by
  have hc := cancelInterval_spec w h
  have hall := h
  obtain ⟨h1, h2, h3, h4, h5, h6⟩ := h
  unfold clearModulation
  unfold cancelInterval at hc
  cases hh : w.currentModulationInterval with
  | none =>
    rw [hh] at hc
    simp only [truthyHandle] at hc ⊢
    exact ⟨hall, hc.2.1, hh⟩
  | some id =>
    rw [hh] at hc
    have htr := truthyHandle_of_inv w hall id hh
    rw [if_pos htr] at hc
    rw [if_pos htr]
    obtain ⟨⟨g1, g2, g3, g4, g5, g6⟩, hno, -⟩ := hc
    refine ⟨⟨g1, g2, g3, ?_, ?_, ?_⟩, ?_, rfl⟩
    · intro t ht hs
      have := (intervals_eq_nil_iff _).1 hno t ht
      rw [hs] at this
      exact absurd this (by simp)
    · intro id2 hid
      exact Option.noConfusion hid
    · intro hcf
      exact ⟨(g6 hcf).1, rfl⟩
    · exact (intervals_eq_nil_iff _).2 ((intervals_eq_nil_iff _).1 hno)

theorem timerInv_scheduleFadeDone (w : World) (h : TimerInv w) (hc : w.audioContext = true) :
    TimerInv (scheduleFadeDone w) := by
  unfold scheduleFadeDone
  split
  · exact timerInv_setTimeout w _ _ h hc
  · exact h

theorem stopSound_timers (w : World) (h : TimerInv w) :
    TimerInv (stopSound w).world ∧ (stopSound w).world.intervals = []
      ∧ (stopSound w).world.currentModulationInterval = none := by
  by_cases hc : w.audioContext = true
  · rw [stopSound_eq w hc]
    simp only [Completion.world]
    apply clearModulation_spec
    apply (sameTimers_inv (sameTimers_resetPadAppearance _)).1
    apply timerInv_scheduleFadeDone
    · exact (sameTimers_inv (sameTimers_fadeGains _ _)).1 h
    · rw [(sameTimers_fadeGains _ _).2.2.2, hc]
  · have hcf : w.audioContext = false := by simpa using hc
    have e : stopSound w = .throw .typeError w := by simp [stopSound, hcf]
    rw [e]
    have := h.2.2.2.2.2 hcf
    refine ⟨h, ?_, this.2⟩
    simp [Completion.world, World.intervals, this.1]

theorem timerInv_setupModulation (w : World) (h : TimerInv w) :
    TimerInv (setupModulation w).world := by
  obtain ⟨g, hno, e1, e2, e3, e4, -⟩ := cancelInterval_spec w h
  unfold setupModulation
  dsimp only
  split
  · split
    · exact g
    · rename_i hc
      have hc : (cancelInterval w).audioContext = true := by simpa using hc
      split
      · exact g
      · -- a new periodic timer
        obtain ⟨g1, g2, g3, g4, g5, g6⟩ := g
        have hno2 := (intervals_eq_nil_iff _).1 hno
        refine ⟨Nat.succ_pos _, ?_, ?_, ?_, ?_, ?_⟩
        · intro t ht
          simp only [Completion.world, World.setInterval, World.automate, List.mem_append,
            List.mem_singleton] at ht
          rcases ht with ht | rfl
          · exact ⟨(g2 t ht).1, Nat.lt_succ_of_lt (g2 t ht).2⟩
          · exact ⟨g1, Nat.lt_succ_self _⟩
        · simp only [Completion.world, World.setInterval, World.automate, List.map_append,
            List.map_cons, List.map_nil]
          refine List.Nodup.append g3 (List.nodup_singleton _) ?_
          intro x hx hx2
          simp only [List.mem_singleton] at hx2
          obtain ⟨t, ht, e⟩ := List.mem_map.1 hx
          have := (g2 t ht).2
          omega
        · intro t ht hs
          simp only [Completion.world, World.setInterval, World.automate, List.mem_append,
            List.mem_singleton] at ht
          rcases ht with ht | rfl
          · have := hno2 t ht
            rw [hs] at this
            exact absurd this (by simp)
          · rfl
        · intro id hid
          simp only [Completion.world, World.setInterval, World.automate,
            Option.some.injEq] at hid
          subst hid
          exact ⟨g1, Nat.lt_succ_self _⟩
        · intro hcf
          simp only [Completion.world, World.setInterval, World.automate] at hcf
          rw [hc] at hcf
          exact absurd hcf (by simp)
  · exact g

theorem timerInv_modulateFrequency (b m : Rat) (w : World) (h : TimerInv w) :
    TimerInv (modulateFrequency b m w).world := by
  unfold modulateFrequency
  split
  · exact h
  · rename_i hc
    have hc : w.audioContext = true := by simpa using hc
    dsimp only
    split
    · exact h
    · unfold World.exponentialRamp
      split
      · exact h
      · simp only [Completion.andThen, Completion.world]
        exact timerInv_setTimeout _ _ _ h hc

theorem timerInv_oldModulateFrequency (w : World) (h : TimerInv w) :
    TimerInv (OldScript.modulateFrequency w).world := by
  unfold OldScript.modulateFrequency
  split
  · exact h
  · rename_i hc
    have hc : w.audioContext = true := by simpa using hc
    dsimp only
    split
    · exact h
    · split
      · split
        · exact h
        · unfold World.exponentialRamp
          split
          · exact h
          · simp only [Completion.andThen, Completion.world]
            exact timerInv_setTimeout _ _ _ h hc
      · exact h

theorem timerInv_runAction (a : TimerAction) (w : World) (h : TimerInv w) :
    TimerInv (runAction a w).world := by
  cases a with
  | fadeDone => exact (sameTimers_inv (sameTimers_fadeDone w)).1 h
  | modulateFrequency b m => exact timerInv_modulateFrequency b m w h
  | rampDown b t => exact (sameTimers_inv (sameTimers_rampDown b t w)).1 h
  | liveModulateFrequency => exact timerInv_oldModulateFrequency w h

theorem timerInv_fireTimer (id : Nat) (w : World) (h : TimerInv w) :
    TimerInv (fireTimer id w).world := by
  unfold fireTimer
  split
  · exact h
  · rename_i t hfind
    split
    · exact h
    · apply timerInv_runAction
      have htm : t ∈ w.timers := List.mem_of_find?_eq_some hfind
      have htid : t.id = id := by
        have := List.find?_some hfind
        simpa using this
      obtain ⟨h1, h2, h3, h4, h5, h6⟩ := h
      have hrest : ∀ u ∈ w.timers.filter (fun u => u.id != id), u ∈ w.timers ∧ u.id ≠ id := by
        intro u hu
        have := List.mem_filter.1 hu
        exact ⟨this.1, by simpa using this.2⟩
      have hnd : ((w.timers.filter (fun u => u.id != id)).map Timer.id).Nodup :=
        (List.filter_sublist _).map _ |>.nodup h3
      cases hp : t.period with
      | none =>
        refine ⟨h1, fun u hu => h2 u (hrest u hu).1, hnd, fun u hu => h4 u (hrest u hu).1,
          h5, ?_⟩
        intro hcf
        have := h6 hcf
        rw [this.1] at htm
        exact absurd htm (List.not_mem_nil _)
      | some p =>
        refine ⟨h1, ?_, ?_, ?_, h5, ?_⟩
        · intro u hu
          simp only [List.mem_append, List.mem_singleton] at hu
          rcases hu with hu | rfl
          · exact h2 u (hrest u hu).1
          · exact h2 t htm
        · simp only [List.map_append, List.map_cons, List.map_nil]
          refine List.Nodup.append hnd (List.nodup_singleton _) ?_
          intro x hx hx2
          simp only [List.mem_singleton] at hx2
          obtain ⟨u, hu, e⟩ := List.mem_map.1 hx
          exact (hrest u hu).2 (by rw [e, hx2, htid])
        · intro u hu hs
          simp only [List.mem_append, List.mem_singleton] at hu
          rcases hu with hu | rfl
          · exact h4 u (hrest u hu).1 hs
          · exact h4 t htm (by rw [hp]; rfl)
        · intro hcf
          have := h6 hcf
          rw [this.1] at htm
          exact absurd htm (List.not_mem_nil _)

theorem timerInv_soundFunction (p : PadId) (w : World) (h : TimerInv w) :
    TimerInv (soundFunction p w).world := by
  cases p
  · exact (sameTimers_inv (sameTimers_playSiren _ _ w)).1 h
  · exact (sameTimers_inv (sameTimers_playSiren _ _ w)).1 h
  · simp only [soundFunction, playFastMod]
    apply timerInv_setupModulation
    exact h
  · exact (sameTimers_inv (sameTimers_playEchoDub w)).1 h

theorem timerInv_startPad (padId : PadId) (w : World) (h : TimerInv w) (hi : Inv w)
    (hc : w.audioContext = true) :
    TimerInv (startPad padId (soundFunction padId) w).world := by
  obtain ⟨w1, w3, e1, i1, p1, c1, l1, t1, o1, s1, n1, e3, sc, e⟩ := startPad_eq padId w hi hc
  rw [e]
  have g1 : TimerInv w1 := by
    cases hp : w.currentPad with
    | none =>
      rw [hp] at e1
      cases e1
      exact h
    | some a =>
      rw [hp] at e1
      have := (stopSound_timers w h).1
      have e2 : stopSound w = .normal w1 := e1
      rw [e2] at this
      exact this
  have g2 : TimerInv (builtVoice (dropOscillator w1)) :=
    (sameTimers_inv (sameTimers_builtVoice _)).1
      ((sameTimers_inv (sameTimers_dropOscillator _)).1 g1)
  have g3 := timerInv_soundFunction padId _ g2
  rw [e3] at g3
  exact g3

theorem timerInv_handleStart (padId : PadId) (ty : EventType) (w : World) (h : TimerInv w)
    (hi : Inv w) (hc : w.audioContext = true) :
    TimerInv (handleStart padId (soundFunction padId) ty w).world := by
  unfold handleStart touchGate
  split
  · exact h
  · rename_i w0 hw0
    split at hw0
    · cases hw0
      exact timerInv_startPad padId _ h hi hc
    · split at hw0
      · exact Option.noConfusion hw0
      · cases hw0
        exact timerInv_startPad padId w h hi hc

theorem timerInv_handleEnd (padId : PadId) (ty : EventType) (w : World) (h : TimerInv w) :
    TimerInv (handleEnd padId ty w).world := by
  unfold handleEnd
  split
  · exact h
  · have := (stopSound_timers w h).1
    revert this
    cases stopSound w with
    | normal w1 => exact fun h1 => h1
    | throw e w1 => exact fun h1 => h1

theorem timerInv_dispatch (e : Event) (w : World) (h : TimerInv w) (hi : Inv w) :
    TimerInv (dispatch e w).world := by
  cases e with
  | pad padId ty =>
    simp only [dispatch]
    by_cases hl : w.listening = true
    · simp only [hl, Bool.not_true, Bool.false_eq_true, if_false]
      cases ty
      · exact timerInv_handleStart _ _ _ h hi (hi.1 hl)
      · exact timerInv_handleEnd _ _ _ h
      · exact timerInv_handleEnd _ _ _ h
      · exact timerInv_handleStart _ _ _ h hi (hi.1 hl)
      · exact timerInv_handleEnd _ _ _ h
    · simp only [hl, Bool.not_false, if_true]
      simpa [Completion.world] using h
  | knobDown id clientY =>
    simp only [dispatch]
    split <;> exact h
  | knobMove id clientY =>
    simp only [dispatch]
    split
    · exact h
    · exact (sameTimers_inv (sameTimers_handleMouseMove _ _ _ _ w)).1 h
  | knobUp id =>
    simp only [dispatch]
    split <;> exact h
  | waveformChange wf =>
    simp only [dispatch]
    split
    · exact h
    · split <;> exact h
  | advance ms sec =>
    simp only [dispatch]
    split <;> exact h
  | fire id => exact timerInv_fireTimer id w h

theorem timerInv_handle (e : Event) (w : World) (h : TimerInv w) (hi : Inv w) :
    TimerInv (handle e w) := by
  have := timerInv_dispatch e w h hi
  unfold handle
  revert this
  cases dispatch e w with
  | normal w1 => exact fun h1 => h1
  | throw err w1 => exact fun h1 => h1

theorem timerInv_loaded (page : Page) : TimerInv (domContentLoaded (initialWorld page)) := by
  unfold domContentLoaded initializeAudio
  cases hs : page.audioSupported <;>
    simp [initialWorld, hs, TimerInv, World.logCaught]

/-- Every world the page can reach satisfies the timer invariant. -/
theorem reachable_timerInv (page : Page) (w : World) (h : Reachable page w) : TimerInv w := by
  induction h with
  | loaded => exact timerInv_loaded page
  | step e w hr ih => exact timerInv_handle e w ih (reachable_inv page w hr)

/-! ### Lemmas on `stopSound` and timers -/

theorem oldStopSound_normal (u : World)
    (h : ∀ o, u.oscillator = some o → u.oscStatus o = .running) :
    ∃ u1, OldScript.stopSound u = .normal u1 ∧ u1.oscillator = none := by
  unfold OldScript.stopSound
  cases ho : u.oscillator with
  | none =>
    simp only [Completion.andThen]
    refine ⟨_, rfl, ?_⟩
    show (match u.currentPad with
      | some pad =>
        { u with
          padColor := Function.update u.padColor pad .idle
          currentPad := none }
      | none => u).oscillator = none
    cases u.currentPad <;> exact ho
  | some o =>
    simp only [World.oscStop, h o ho, if_true, Completion.andThen]
    refine ⟨_, rfl, ?_⟩
    dsimp only
    split <;> rfl

theorem oldStopSound_twice (u : World)
    (h : ∀ o, u.oscillator = some o → u.oscStatus o = .running) :
    ∃ u1 u2, OldScript.stopSound u = .normal u1 ∧ OldScript.stopSound u1 = .normal u2 := by
  obtain ⟨u1, e1, o1⟩ := oldStopSound_normal u h
  obtain ⟨u2, e2, -⟩ := oldStopSound_normal u1
    (fun o ho => by rw [o1] at ho; exact Option.noConfusion ho)
  exact ⟨u1, u2, e1, e2⟩

/-- A due timer runs its callback on the world with the timer removed or re-armed. -/
theorem fireTimer_due (id : Nat) (u : World) (t : Timer)
    (hf : u.timers.find? (fun x => decide (x.id = id)) = some t) (hd : ¬ u.clock < t.due) :
    ∃ v : World, v.uncaught = u.uncaught ∧ fireTimer id u = runAction t.action v := by
  unfold fireTimer
  rw [hf]
  simp only [hd, if_false]
  refine ⟨?v, ?h1, ?h2⟩
  case h2 => exact rfl
  case h1 => rfl

/-- C4: once the audio context exists, two `stopSound` calls in a row complete normally,
and so do the two fade callbacks when they run later (`fadeDone` completes normally in
every world, so firing a fade timer never leaves an uncaught exception).  With a live
voice the first callback halts and discards the oscillator and the second one finds
`oscillator` null: the error is caught inside the callback and logged.  In
`script-old.js` the second `stopSound` finds `oscillator` null and skips the halt. -/
theorem stopSound_twice_no_throw (w : World) (hc : w.audioContext = true) :
    (∃ w1 w2 w3 w4, stopSound w = .normal w1 ∧ stopSound w1 = .normal w2
        ∧ fadeDone w2 = .normal w3 ∧ fadeDone w3 = .normal w4
        ∧ (∀ o, w.oscillator = some o → w.oscStatus o = .running →
            w3.oscillator = none ∧ w3.oscStatus o = .stopped
              ∧ w4 = w3.logCaught .typeError))
      ∧ (∀ u : World, (fadeDone u).isNormal = true)
      ∧ (∀ (u : World) (id : Nat) (t : Timer),
          u.timers.find? (fun x => decide (x.id = id)) = some t → t.action = .fadeDone →
            (dispatch (.fire id) u).isNormal = true
              ∧ (handle (.fire id) u).uncaught = u.uncaught)
      ∧ ∀ u : World, (∀ o, u.oscillator = some o → u.oscStatus o = .running) →
          ∃ u1 u2, OldScript.stopSound u = .normal u1 ∧ OldScript.stopSound u1 = .normal u2 := by
  have hnormal : ∀ u : World, ∃ u1, fadeDone u = .normal u1 ∧ u1.uncaught = u.uncaught := by
    intro u
    rcases fadeDone_cases u with ⟨o, -, -, e⟩ | ⟨-, e⟩ | ⟨o, -, -, e⟩ <;>
      exact ⟨_, e, rfl⟩
  obtain ⟨w1, e1, -, c1, -, -, o1, s1, -⟩ := stopSound_fields w hc
  obtain ⟨w2, e2, -, c2, -, -, o2, s2, -⟩ := stopSound_fields w1 c1
  obtain ⟨w3, e3, -⟩ := hnormal w2
  obtain ⟨w4, e4, -⟩ := hnormal w3
  refine ⟨⟨w1, w2, w3, w4, e1, e2, e3, e4, ?_⟩, ?_, ?_, oldStopSound_twice⟩
  · intro o ho hs
    have ho2 : w2.oscillator = some o := by rw [o2, o1, ho]
    have hs2 : w2.oscStatus o = .running := by rw [s2, s1, hs]
    rcases fadeDone_cases w2 with ⟨o', ho', -, e⟩ | ⟨hn, -⟩ | ⟨o', ho', hns, -⟩
    · rw [ho2] at ho'
      cases ho'
      rw [e3] at e
      have e := Completion.normal.inj e
      subst e
      refine ⟨rfl, by simp, ?_⟩
      rcases fadeDone_cases
          { w2 with
            oscStatus := Function.update w2.oscStatus o .stopped
            trace := w2.trace ++ [.stop o]
            oscillator := none } with ⟨o', ho', -, -⟩ | ⟨-, e⟩ | ⟨o', ho', -, -⟩
      · exact Option.noConfusion ho'
      · rw [e4] at e
        exact Completion.normal.inj e
      · exact Option.noConfusion ho'
    · rw [ho2] at hn
      exact Option.noConfusion hn
    · rw [ho2] at ho'
      cases ho'
      exact absurd hs2 hns
  · intro u
    obtain ⟨u1, e, -⟩ := hnormal u
    rw [e]
    rfl
  · intro u id t hf ha
    by_cases hd : u.clock < t.due
    · simp [dispatch, handle, fireTimer, hf, hd, Completion.isNormal]
    · obtain ⟨v, hv, hf2⟩ := fireTimer_due id u t hf hd
      rw [ha] at hf2
      obtain ⟨u1, e, hu⟩ := hnormal v
      have hd2 : dispatch (.fire id) u = .normal u1 := by
        show fireTimer id u = .normal u1
        rw [hf2]
        exact e
      refine ⟨by rw [hd2]; rfl, ?_⟩
      simp only [handle, hd2]
      rw [hu, hv]

/-- Witness for C4: on the demo page with pad 1 sounding, two `stopSound` calls complete
normally. -/
theorem stopSound_twice_no_throw_witness :
    demoPlaying.audioContext = true
      ∧ ∃ w1 w2, stopSound demoPlaying = .normal w1 ∧ stopSound w1 = .normal w2 :=
  ⟨rfl,
    match (stopSound_twice_no_throw demoPlaying rfl).1 with
    | ⟨w1, w2, _, _, e1, e2, _⟩ => ⟨w1, w2, e1, e2⟩⟩

/-! ## C5 and C6 -/

theorem cancelInterval_frame (w : World) :
    (cancelInterval w).nextTimer = w.nextTimer ∧ (cancelInterval w).audioContext = w.audioContext
      ∧ (cancelInterval w).oscillator = w.oscillator
      ∧ (cancelInterval w).knobValue = w.knobValue ∧ (cancelInterval w).clock = w.clock
      ∧ (cancelInterval w).currentTime = w.currentTime ∧ (cancelInterval w).param = w.param
      ∧ (cancelInterval w).currentModulationInterval = w.currentModulationInterval
      ∧ (∀ t ∈ (cancelInterval w).timers, t ∈ w.timers) := by
  unfold cancelInterval
  split
  · split
    · exact ⟨rfl, rfl, rfl, rfl, rfl, rfl, rfl, rfl, fun t ht => List.mem_of_mem_filter ht⟩
    · exact ⟨rfl, rfl, rfl, rfl, rfl, rfl, rfl, rfl, fun t ht => ht⟩
  · exact ⟨rfl, rfl, rfl, rfl, rfl, rfl, rfl, rfl, fun t ht => ht⟩

/-- What `setupModulation` does when the speed it computes is positive and a voice is
live: the base frequency is set and one periodic timer is started. -/
theorem setupModulation_start (w : World) (o : Nat) (hc : w.audioContext = true)
    (ho : w.oscillator = some o)
    (hpos : 0 < parseFloatOr (w.knobValue .modSpeed) 1) :
    setupModulation w
      = .normal
          { ((cancelInterval w).automate o
              (.setValueAtTime (parseFloatOr (w.knobValue .frequency) 440) w.currentTime)) with
            nextTimer := w.nextTimer + 1
            timers := (cancelInterval w).timers ++
              [⟨w.nextTimer, w.clock + 1000 / parseFloatOr (w.knobValue .modSpeed) 1,
                some (1000 / parseFloatOr (w.knobValue .modSpeed) 1),
                .modulateFrequency (parseFloatOr (w.knobValue .frequency) 440)
                  (parseFloatOr (w.knobValue .modSpeed) 1)⟩]
            trace := (cancelInterval w).trace ++
              [.automate o
                  (.setValueAtTime (parseFloatOr (w.knobValue .frequency) 440) w.currentTime),
                .setInterval w.nextTimer (1000 / parseFloatOr (w.knobValue .modSpeed) 1)
                  (.modulateFrequency (parseFloatOr (w.knobValue .frequency) 440)
                    (parseFloatOr (w.knobValue .modSpeed) 1))]
            currentModulationInterval := some w.nextTimer } := by
  obtain ⟨f1, f2, f3, f4, f5, f6, -⟩ := cancelInterval_frame w
  unfold setupModulation
  simp only [f4, f2, f3, f6, hpos, gt_iff_lt, if_true, hc, ho, Bool.not_true, Bool.false_eq_true,
    if_false, World.setInterval, World.automate, f1, f5, List.append_assoc, List.singleton_append]

/-- What `setupModulation` does when the speed it computes is not positive: only the
cancellation of lines 269-271. -/
theorem setupModulation_skip (w : World)
    (hneg : ¬ 0 < parseFloatOr (w.knobValue .modSpeed) 1) :
    setupModulation w = .normal (cancelInterval w) := by
  obtain ⟨f1, f2, f3, f4, f5, f6, -⟩ := cancelInterval_frame w
  unfold setupModulation
  simp only [f4, hneg, gt_iff_lt, if_false]

theorem timerInv_modOp (op : ModOp) (w : World) (h : TimerInv w) : TimerInv (op.apply w) := by
  cases op with
  | setupModulation => exact timerInv_setupModulation w h
  | clearModulation => exact (clearModulation_spec w h).1
  | stopSound => exact (stopSound_timers w h).1
  | turnKnobs kv => exact h

theorem timerInv_runModOps (ops : List ModOp) (w : World) (h : TimerInv w) :
    TimerInv (runModOps ops w) := by
  induction ops generalizing w with
  | nil => exact h
  | cons op ops ih => exact ih (op.apply w) (timerInv_modOp op w h)

theorem intervals_le_one (w : World) (h : TimerInv w) :
    w.intervals.length ≤ 1
      ∧ ∀ t ∈ w.intervals, w.currentModulationInterval = some t.id := by
  obtain ⟨-, -, h3, h4, -, -⟩ := h
  have hall : ∀ t ∈ w.intervals, w.currentModulationInterval = some t.id := by
    intro t ht
    have := List.mem_filter.1 ht
    exact h4 t this.1 this.2
  refine ⟨?_, hall⟩
  have hnd : (w.intervals.map Timer.id).Nodup :=
    (List.filter_sublist _).map _ |>.nodup h3
  by_contra hlen
  push_neg at hlen
  match hw : w.intervals, hlen with
  | a :: b :: rest, _ =>
    rw [hw] at hnd hall
    have ea := hall a (by simp)
    have eb := hall b (by simp)
    rw [ea] at eb
    have : a.id = b.id := Option.some.inj eb
    simp [this] at hnd

theorem clearModulation_of_falsy (w : World)
    (h : truthyHandle w.currentModulationInterval = false) : clearModulation w = w := by
  unfold clearModulation
  rw [h]
  rfl

theorem clearModulation_idem (w : World) :
    clearModulation (clearModulation w) = clearModulation w := by
  apply clearModulation_of_falsy
  unfold clearModulation
  cases htr : truthyHandle w.currentModulationInterval with
  | false => simpa using htr
  | true =>
    cases hh : w.currentModulationInterval with
    | none => rw [hh] at htr; simp [truthyHandle] at htr
    | some id => rfl

/-- C7: over every sequence of `setupModulation`, `clearModulation` and `stopSound`
calls (with the knobs turned at will in between), started in a world that satisfies the
timer invariant, at most one periodic timer is pending and it is the one stored in
`currentModulationInterval`.  In the world reached, `setupModulation` removes the
pending periodic timer before it starts a new one; after `clearModulation` or
`stopSound` no periodic timer is pending and `currentModulationInterval` is null; a
second `clearModulation` changes nothing. -/
theorem one_modulation_timer (ops : List ModOp) (w : World) (h : TimerInv w) :
    (runModOps ops w).intervals.length ≤ 1
      ∧ (∀ t ∈ (runModOps ops w).intervals,
          (runModOps ops w).currentModulationInterval = some t.id)
      ∧ (∀ t ∈ (runModOps ops w).intervals,
          t ∉ (setupModulation (runModOps ops w)).world.timers)
      ∧ (setupModulation (runModOps ops w)).world.intervals.length ≤ 1
      ∧ (clearModulation (runModOps ops w)).intervals = []
      ∧ (clearModulation (runModOps ops w)).currentModulationInterval = none
      ∧ (stopSound (runModOps ops w)).world.intervals = []
      ∧ (stopSound (runModOps ops w)).world.currentModulationInterval = none
      ∧ clearModulation (clearModulation (runModOps ops w)) = clearModulation (runModOps ops w) := by
  have hu := timerInv_runModOps ops w h
  generalize runModOps ops w = u at hu
  obtain ⟨l1, l2⟩ := intervals_le_one u hu
  obtain ⟨-, c2, c3⟩ := clearModulation_spec u hu
  obtain ⟨-, s2, s3⟩ := stopSound_timers u hu
  refine ⟨l1, l2, ?_, (intervals_le_one _ (timerInv_setupModulation u hu)).1, c2, c3, s2, s3,
    clearModulation_idem u⟩
  intro t ht hmem
  have htm := List.mem_filter.1 ht
  have hid := l2 t ht
  obtain ⟨g, hno, e1, e2, -, -, -, -, -, -, et⟩ := cancelInterval_spec u hu
  have hnotin : t ∉ (cancelInterval u).timers := by
    intro hin
    have := (intervals_eq_nil_iff _).1 hno t hin
    rw [htm.2] at this
    exact absurd this (by simp)
  have hlt := (hu.2.1 t htm.1).2
  by_cases hpos : 0 < parseFloatOr (u.knobValue .modSpeed) 1
  · by_cases hc : u.audioContext = true
    · cases ho : u.oscillator with
      | none =>
        have e : setupModulation u = .throw .typeError (cancelInterval u) := by
          obtain ⟨f1, f2, f3, f4, -⟩ := cancelInterval_frame u
          unfold setupModulation
          simp only [f4, hpos, gt_iff_lt, if_true, f2, hc, f3, ho, Bool.not_true,
            Bool.false_eq_true, if_false]
        rw [e] at hmem
        exact hnotin hmem
      | some o =>
        rw [setupModulation_start u o hc ho hpos] at hmem
        simp only [Completion.world, List.mem_append, List.mem_singleton] at hmem
        rcases hmem with hmem | rfl
        · exact hnotin hmem
        · exact absurd hlt (Nat.lt_irrefl _)
    · have e : setupModulation u = .throw .typeError (cancelInterval u) := by
        obtain ⟨f1, f2, f3, f4, -⟩ := cancelInterval_frame u
        unfold setupModulation
        simp only [f4, hpos, gt_iff_lt, if_true, f2, hc, Bool.not_false]
      rw [e] at hmem
      exact hnotin hmem
  · rw [setupModulation_skip u hpos] at hmem
    exact hnotin hmem

/-- Witness for C7: the demo page with pad 1 sounding; the modulation is started,
restarted and stopped twice. -/
theorem one_modulation_timer_witness :
    TimerInv demoPlaying
      ∧ (runModOps [.setupModulation, .setupModulation, .clearModulation, .clearModulation]
          demoPlaying).intervals.length ≤ 1 :=
  ⟨reachable_timerInv demoPage demoPlaying (reachable_run demoPage _ _ Reachable.loaded),
    (one_modulation_timer [.setupModulation, .setupModulation, .clearModulation, .clearModulation]
      demoPlaying
      (reachable_timerInv demoPage demoPlaying (reachable_run demoPage _ _ Reachable.loaded))).1⟩

/-! ## C8 -/

/-- C8: for a range with `min < max`, `updateKnobRotation` stores the angle
`(value - min) / (max - min) * 270 - 135`: it is -135 at `min`, 135 at `max`, 0 at the
midpoint, and between -135 and 135 for every value in the range.  The drag handler of
`script-old.js` computes the same angle from the value it stores. -/
theorem knob_rotation_mapping (knob : KnobId) (min max : Rat) (w : World) (h : min < max) :
    (∀ value : Rat, (updateKnobRotation knob (some value) min max w).knobRotation knob
        = (value - min) / (max - min) * 270 - 135)
      ∧ (updateKnobRotation knob (some min) min max w).knobRotation knob = -135
      ∧ (updateKnobRotation knob (some max) min max w).knobRotation knob = 135
      ∧ (updateKnobRotation knob (some ((min + max) / 2)) min max w).knobRotation knob = 0
      ∧ (∀ value : Rat, min ≤ value → value ≤ max →
          -135 ≤ (updateKnobRotation knob (some value) min max w).knobRotation knob
            ∧ (updateKnobRotation knob (some value) min max w).knobRotation knob ≤ 135)
      ∧ ∀ startValue startY clientY : Rat,
          (OldScript.handleMouseMove min max startValue startY clientY).2
            = ((OldScript.handleMouseMove min max startValue startY clientY).1 - min)
                / (max - min) * 270 - 135 := by
  have hpos : 0 < max - min := sub_pos.2 h
  have hne : max - min ≠ 0 := ne_of_gt hpos
  have key : ∀ value : Rat, (updateKnobRotation knob (some value) min max w).knobRotation knob
      = (value - min) / (max - min) * 270 - 135 := by
    intro value
    simp [updateKnobRotation, rotationOf]
  refine ⟨key, ?_, ?_, ?_, ?_, ?_⟩
  · rw [key]
    simp
  · rw [key, div_self hne]
    norm_num
  · rw [key]
    have : ((min + max) / 2 - min) / (max - min) = 1 / 2 := by
      field_simp
      ring
    rw [this]
    norm_num
  · intro value h1 h2
    rw [key]
    have h0 : 0 ≤ (value - min) / (max - min) := div_nonneg (sub_nonneg.2 h1) hpos.le
    have h3 : (value - min) / (max - min) ≤ 1 := by
      rw [div_le_one hpos]
      linarith
    constructor <;> nlinarith
  · intro startValue startY clientY
    rfl

/-- Witness for C8: the frequency knob of the demo page, range `[20, 2000]`, at its
maximum. -/
theorem knob_rotation_mapping_witness :
    (20 : Rat) < 2000
      ∧ (updateKnobRotation .frequency (some 2000) 20 2000 demoLoaded).knobRotation .frequency
          = 135 :=
  ⟨by norm_num, (knob_rotation_mapping .frequency 20 2000 demoLoaded (by norm_num)).2.2.1⟩

/-! ## C9 -/

/-- C10: with a live voice in a reachable world, `updateParameter(id, v)` makes exactly
the `setValueAtTime(v, now)` call that belongs to `id`: on the oscillator for
`frequency`, on the delay for `delayTime`, on the feedback gain for `feedback`, on the
output gain for `volume`; for `reverbAmount` it sets the wet gain to `v` and the dry gain
to `1 - v`; for any other id it changes nothing.  The eight nodes of the voice are
distinct, so every other node parameter keeps its timeline. -/
theorem updateParameter_targets (page : Page) (w : World) (o : Nat) (v : Rat)
    (hr : Reachable page w) (ho : w.oscillator = some o) :
    w.gainNode = some (o + 1) ∧ w.delayNode = some (o + 2) ∧ w.feedbackNode = some (o + 3)
      ∧ w.dryGainNode = some (o + 5) ∧ w.wetGainNode = some (o + 6)
      ∧ updateParameter .frequency (some v) w
          = .normal (w.automate o (.setValueAtTime v w.currentTime))
      ∧ updateParameter .delayTime (some v) w
          = .normal (w.automate (o + 2) (.setValueAtTime v w.currentTime))
      ∧ updateParameter .feedback (some v) w
          = .normal (w.automate (o + 3) (.setValueAtTime v w.currentTime))
      ∧ updateParameter .volume (some v) w
          = .normal (w.automate (o + 1) (.setValueAtTime v w.currentTime))
      ∧ updateParameter .reverbAmount (some v) w
          = .normal ((w.automate (o + 6) (.setValueAtTime v w.currentTime)).automate (o + 5)
              (.setValueAtTime (1 - v) w.currentTime))
      ∧ updateParameter .roomSize (some v) w = .normal w
      ∧ updateParameter .modSpeed (some v) w = .normal w
      ∧ (∀ (n : Nat) (a : Automation),
          (w.automate n a).param n = w.param n ++ [a]
            ∧ ∀ m, m ≠ n → (w.automate n a).param m = w.param m)
      ∧ (∀ m, ((w.automate (o + 6) (.setValueAtTime v w.currentTime)).automate (o + 5)
              (.setValueAtTime (1 - v) w.currentTime)).param m
            = if m = o + 6 then w.param m ++ [.setValueAtTime v w.currentTime]
              else if m = o + 5 then w.param m ++ [.setValueAtTime (1 - v) w.currentTime]
              else w.param m)
      ∧ v + (1 - v) = 1 := by
  obtain ⟨-, ⟨hg, hd, hf, -, hdry, hwet, -⟩, hc⟩ := (reachable_inv page w hr).2.1 o ho
  refine ⟨hg, hd, hf, hdry, hwet, ?_, ?_, ?_, ?_, ?_, ?_, ?_, ?_, ?_, by ring⟩
  · simp [updateParameter, hc, ho, World.setValueAtTime]
  · simp [updateParameter, hc, ho, hd, World.setValueAtTime]
  · simp [updateParameter, hc, ho, hf, World.setValueAtTime]
  · simp [updateParameter, hc, ho, hg, World.setValueAtTime]
  · simp [updateParameter, hc, ho, hwet, hdry, World.setValueAtTime, Completion.andThen,
      World.automate]
  · simp [updateParameter, hc, ho]
  · simp [updateParameter, hc, ho]
  · intro n a
    refine ⟨by simp [World.automate], ?_⟩
    intro m hm
    simp [World.automate, Function.update_noteq hm]
  · intro m
    by_cases h6 : m = o + 6
    · subst h6
      simp (disch := omega) [World.automate, Function.update_noteq]
    · by_cases h5 : m = o + 5
      · subst h5
        simp (disch := omega) [World.automate, Function.update_noteq]
      · simp [World.automate, Function.update_noteq h6, Function.update_noteq h5, h6, h5]

/-- Witness for C10: the demo page with pad 1 sounding; the volume is set to 0.25. -/
theorem updateParameter_targets_witness :
    Reachable demoPage demoPlaying ∧ demoPlaying.oscillator = some 0
      ∧ updateParameter .volume (some (1 / 4)) demoPlaying
        = .normal (demoPlaying.automate 1 (.setValueAtTime (1 / 4) demoPlaying.currentTime)) :=
  ⟨reachable_run demoPage _ _ Reachable.loaded, rfl,
    (updateParameter_targets demoPage demoPlaying 0 (1 / 4)
      (reachable_run demoPage _ _ Reachable.loaded) rfl).2.2.2.2.2.2.2.2.1⟩

/-! ## More frame lemmas -/

theorem samePanel_refl (w : World) : SamePanel w w := ⟨rfl, rfl, rfl, rfl⟩

theorem samePanel_trans {w w1 w2 : World} (h1 : SamePanel w w1) (h2 : SamePanel w1 w2) :
    SamePanel w w2 := by
  simp only [SamePanel] at *
  simp [h1, h2]

theorem samePanel_updateParameter (id : KnobId) (v : Option Rat) (w : World) :
    SamePanel w (updateParameter id v w).world := by
  unfold updateParameter
  cases v <;> cases id <;> dsimp only <;> (repeat' split) <;>
    simp [SamePanel, Completion.world, World.automate, World.setValueAtTime, Completion.andThen]

/-- What `updateValue` leaves behind, whether or not `updateParameter` throws: the
clamped value in the knob's `data-value`, drag state and connections as before. -/
theorem updateValue_panel (id : KnobId) (min max : Rat) (v : Option Rat) (w : World) :
    (updateValue id min max v w).world.knobValue
        = Function.update w.knobValue id (clampedValue min max v)
      ∧ (updateValue id min max v w).world.drag = w.drag
      ∧ (updateValue id min max v w).world.edges = w.edges
      ∧ (updateValue id min max v w).world.nextNode = w.nextNode := by
  unfold updateValue
  dsimp only
  have h := samePanel_updateParameter id (clampedValue min max v)
    (updateDisplay id (clampedValue min max v)
      { w with knobValue := Function.update w.knobValue id (clampedValue min max v) })
  revert h
  cases updateParameter id (clampedValue min max v)
    (updateDisplay id (clampedValue min max v)
      { w with knobValue := Function.update w.knobValue id (clampedValue min max v) }) with
  | normal w1 =>
    intro h
    cases hv : clampedValue min max v <;>
      simpa [SamePanel, Completion.world, Completion.andThen, updateKnobRotation, updateDisplay, hv]
        using h
  | throw e w1 =>
    intro h
    simpa [SamePanel, Completion.world, Completion.andThen, updateDisplay] using h

theorem samePanel_setupModulation (w : World) : SamePanel w (setupModulation w).world := by
  unfold setupModulation cancelInterval
  dsimp only
  repeat' split
  all_goals simp [SamePanel, Completion.world, World.clearInterval, World.automate, World.setInterval]

theorem samePanel_exponentialRamp (w : World) (n : Nat) (v t : Rat) :
    SamePanel w (w.exponentialRamp n v t).world := by
  unfold World.exponentialRamp
  split <;> simp [SamePanel, Completion.world, World.automate]

theorem samePanel_modulateFrequency (b m : Rat) (w : World) :
    SamePanel w (modulateFrequency b m w).world := by
  unfold modulateFrequency World.exponentialRamp
  dsimp only
  repeat' split
  all_goals simp [SamePanel, Completion.world, World.automate, World.setTimeout, Completion.andThen]

theorem samePanel_rampDown (b t : Rat) (w : World) : SamePanel w (rampDown b t w).world := by
  unfold rampDown
  split
  · exact samePanel_refl w
  · exact samePanel_exponentialRamp _ _ _ _

theorem samePanel_oldModulateFrequency (w : World) :
    SamePanel w (OldScript.modulateFrequency w).world := by
  unfold OldScript.modulateFrequency World.exponentialRamp
  dsimp only
  repeat' split
  all_goals simp [SamePanel, Completion.world, World.automate, World.setTimeout, Completion.andThen]

theorem samePanel_fadeDone (w : World) : SamePanel w (fadeDone w).world := by
  rcases fadeDone_cases w with ⟨o, -, -, h⟩ | ⟨-, h⟩ | ⟨o, -, -, h⟩ <;> rw [h] <;>
    simp [SamePanel, Completion.world, World.logCaught]

theorem samePanel_stopSound (w : World) : SamePanel w (stopSound w).world := by
  unfold stopSound
  split
  · exact samePanel_refl w
  · unfold clearModulation resetPadAppearance scheduleFadeDone fadeGains
    dsimp only
    repeat' split
    all_goals simp [SamePanel, Completion.world, World.automate, World.setTimeout,
      World.clearInterval]

theorem samePanel_dropOscillator (w : World) : SamePanel w (dropOscillator w) := by
  unfold dropOscillator
  split <;> simp [SamePanel]

theorem samePanel_runAction (a : TimerAction) (w : World) :
    SamePanel w (runAction a w).world := by
  cases a
  · exact samePanel_fadeDone w
  · exact samePanel_modulateFrequency _ _ w
  · exact samePanel_rampDown _ _ w
  · exact samePanel_oldModulateFrequency w

theorem samePanel_fireTimer (id : Nat) (w : World) : SamePanel w (fireTimer id w).world := by
  unfold fireTimer
  dsimp only
  repeat' split
  all_goals first
    | exact samePanel_refl w
    | exact @samePanel_trans w { w with timers := _ } _ ⟨rfl, rfl, rfl, rfl⟩
        (samePanel_runAction _ _)

theorem sameBoard_playSiren (freq : Rat) (text : String) (w : World) :
    SameBoard w (playSiren freq text w).world := by
  unfold playSiren
  dsimp only
  repeat' split
  all_goals simp [SameBoard, Completion.world, World.automate, updateKnobRotation]

theorem sameBoard_playFastMod (w : World) : SameBoard w (playFastMod w).world := by
  unfold playFastMod
  dsimp only
  have h := samePanel_setupModulation
    { (updateKnobRotation .modSpeed (some 5) 0 10
        { w with knobValue := Function.update w.knobValue .modSpeed (some 5) }) with
      label := Function.update (updateKnobRotation .modSpeed (some 5) 0 10
        { w with knobValue := Function.update w.knobValue .modSpeed (some 5) }).label
          .modSpeed "5.0" }
  exact ⟨h.2.1, h.2.2.1, h.2.2.2⟩

theorem sameBoard_playEchoDub (w : World) : SameBoard w (playEchoDub w).world := by
  unfold playEchoDub
  dsimp only
  repeat' split
  all_goals simp [SameBoard, Completion.world, World.automate, updateKnobRotation]

/-- The sound functions leave drag state and connections alone. -/
theorem sameBoard_soundFunction (p : PadId) (w : World) :
    SameBoard w (soundFunction p w).world := by
  cases p
  · exact sameBoard_playSiren _ _ _
  · exact sameBoard_playSiren _ _ _
  · exact sameBoard_playFastMod _
  · exact sameBoard_playEchoDub _

/-! ## What a press leaves alone -/

/-- A press in a reachable world, seen from the knobs, the connection graph and the
pads' touch flags: `stopSound` and the clean-up of `setupAudio` change none of them,
then the voice is built and the sound function runs on it. -/
theorem startPad_panel (padId : PadId) (w : World) (h : Inv w) (hc : w.audioContext = true) :
    ∃ u w3 : World, SamePanel w u ∧ u.isTouch = w.isTouch
      ∧ soundFunction padId (builtVoice u) = .normal w3
      ∧ SameCore (builtVoice u) w3
      ∧ startPad padId (soundFunction padId) w
          = .normal
              { w3 with
                currentPad := some padId
                padColor := Function.update w3.padColor padId .active } := by
  obtain ⟨w1, w3, e1, -, -, -, -, t1, -, -, -, e3, sc, e⟩ := startPad_eq padId w h hc
  have hp : SamePanel w w1 := by
    cases hcp : w.currentPad with
    | none =>
      rw [hcp] at e1
      cases e1
      exact samePanel_refl w
    | some a =>
      rw [hcp] at e1
      have e2 : stopSound w = .normal w1 := e1
      have := samePanel_stopSound w
      rw [e2] at this
      exact this
  refine ⟨dropOscillator w1, w3, samePanel_trans hp (samePanel_dropOscillator w1), ?_, e3, sc, e⟩
  rw [(dropOscillator_fields w1).2.2.2.2.1, t1]

/-! ## C11 -/

theorem updateParameter_no_voice (id : KnobId) (x : Option Rat) (w : World)
    (h : w.audioContext = false ∨ w.oscillator = none) :
    updateParameter id x w = .normal w := by
  unfold updateParameter
  rcases h with h | h <;> simp [h]

/-- C11: when the context does not exist or `oscillator` is `null`, `updateParameter`
returns at its guard for every knob and every value: it completes normally and leaves
the world as it is.  `updateValue(v)` then completes normally too, and all it changes is
the knob's stored value, which becomes `max(min, min(max, v))`, its label, which becomes
the text `updateDisplay` derives from that value, and its rotation, which becomes the
angle `updateKnobRotation` derives from it; no parameter timeline, no node and no timer
changes, no platform call is made and no error is logged. -/
theorem updateValue_without_voice (id : KnobId) (min max v : Rat) (w : World)
    (h : w.audioContext = false ∨ w.oscillator = none) :
    (∀ (k : KnobId) (x : Option Rat), updateParameter k x w = .normal w)
      ∧ updateValue id min max (some v) w
          = .normal
              { w with
                knobValue := Function.update w.knobValue id (some (Max.max min (Min.min max v)))
                label := Function.update w.label id
                  (displayText id (some (Max.max min (Min.min max v))))
                knobRotation := Function.update w.knobRotation id
                  (rotationOf (Max.max min (Min.min max v)) min max) }
      ∧ (updateValue id min max (some v) w).world.knobValue id
          = some (Max.max min (Min.min max v))
      ∧ (updateValue id min max (some v) w).world.label id
          = displayText id (some (Max.max min (Min.min max v)))
      ∧ (updateValue id min max (some v) w).world.knobRotation id
          = rotationOf (Max.max min (Min.min max v)) min max
      ∧ (updateValue id min max (some v) w).world.param = w.param
      ∧ (updateValue id min max (some v) w).world.trace = w.trace
      ∧ (updateValue id min max (some v) w).world.oscStatus = w.oscStatus
      ∧ (updateValue id min max (some v) w).world.timers = w.timers
      ∧ (updateValue id min max (some v) w).world.caught = w.caught
      ∧ (updateValue id min max (some v) w).world.uncaught = w.uncaught := by
  have hp : ∀ (k : KnobId) (x : Option Rat), updateParameter k x w = .normal w :=
    fun k x => updateParameter_no_voice k x w h
  have he : updateValue id min max (some v) w
      = .normal
          { w with
            knobValue := Function.update w.knobValue id (some (Max.max min (Min.min max v)))
            label := Function.update w.label id
              (displayText id (some (Max.max min (Min.min max v))))
            knobRotation := Function.update w.knobRotation id
              (rotationOf (Max.max min (Min.min max v)) min max) } := by
    unfold updateValue
    dsimp only [clampedValue, Option.map]
    rw [updateParameter_no_voice]
    · rfl
    · exact h
  refine ⟨hp, he, ?_⟩
  rw [he]
  simp [Completion.world]

theorem updateValue_without_voice_witness :
    (demoLoaded.audioContext = false ∨ demoLoaded.oscillator = none)
      ∧ (updateValue .frequency 20 2000 (some 3000) demoLoaded).world.knobValue .frequency
          = some (Max.max 20 (Min.min 2000 3000))
      ∧ (updateValue .frequency 20 2000 (some 3000) demoLoaded).world.trace = demoLoaded.trace :=
  ⟨Or.inr rfl,
    (updateValue_without_voice .frequency 20 2000 3000 demoLoaded (Or.inr rfl)).2.2.1,
    (updateValue_without_voice .frequency 20 2000 3000 demoLoaded (Or.inr rfl)).2.2.2.2.2.2.1⟩

/-! ## C12 -/

theorem graphInv_dropOscillator (w : World) (h : GraphInv w) : GraphInv (dropOscillator w) := by
  unfold dropOscillator
  cases ho : w.oscillator with
  | none => exact h
  | some o =>
    refine ⟨h.1, ?_⟩
    intro m hm
    apply h.2 m
    simp only [World.voiceNodes, ho] at hm ⊢
    simp only [List.reduceOption_cons_of_none] at hm
    simp only [List.reduceOption_cons_of_some]
    exact List.mem_cons_of_mem _ hm

theorem setupKnobControls_le (k : KnobId) : (setupKnobControls k).1 ≤ (setupKnobControls k).2 := by
  cases k <;> norm_num [setupKnobControls]

/-- Writing an in-range number into one knob keeps all knobs in range. -/
theorem knobsInRange_update (w u : World) (h : KnobsInRange w)
    (id : KnobId) (v : Rat) (h1 : (setupKnobControls id).1 ≤ v) (h2 : v ≤ (setupKnobControls id).2)
    (hu : u.knobValue = Function.update w.knobValue id (some v)) : KnobsInRange u := by
  intro k
  rw [hu]
  by_cases hk : k = id
  · subst hk
    exact ⟨v, by simp, h1, h2⟩
  · rw [Function.update_noteq hk]
    exact h k

theorem knobsInRange_congr (w u : World) (h : KnobsInRange w) (hu : u.knobValue = w.knobValue) :
    KnobsInRange u := by
  intro k
  rw [hu]
  exact h k

/-- What the siren presets write: nothing when they throw at a missing node, and
otherwise the constant into the frequency knob. -/
theorem playSiren_knobValue (freq : Rat) (text : String) (w : World) :
    (playSiren freq text w).world.knobValue = w.knobValue
      ∨ (playSiren freq text w).world.knobValue
          = Function.update w.knobValue .frequency (some freq) := by
  unfold playSiren
  dsimp only
  repeat' split
  all_goals simp [Completion.world, World.automate, updateKnobRotation]

theorem playFastMod_knobValue (w : World) :
    (playFastMod w).world.knobValue = Function.update w.knobValue .modSpeed (some 5) := by
  unfold playFastMod
  dsimp only
  rw [(samePanel_setupModulation _).1]
  rfl

theorem playEchoDub_knobValue (w : World) :
    (playEchoDub w).world.knobValue = w.knobValue
      ∨ (playEchoDub w).world.knobValue
          = Function.update (Function.update w.knobValue .delayTime (some (8 / 10)))
              .feedback (some (7 / 10)) := by
  unfold playEchoDub
  dsimp only
  repeat' split
  all_goals simp [Completion.world, World.automate, updateKnobRotation]

theorem knobsInRange_soundFunction (p : PadId) (w : World) (h : KnobsInRange w) :
    KnobsInRange (soundFunction p w).world := by
  cases p
  · rcases playSiren_knobValue 880 "880 Hz" w with e | e
    · exact knobsInRange_congr w _ h e
    · exact knobsInRange_update w _ h .frequency 880 (by norm_num [setupKnobControls])
        (by norm_num [setupKnobControls]) e
  · rcases playSiren_knobValue 220 "220 Hz" w with e | e
    · exact knobsInRange_congr w _ h e
    · exact knobsInRange_update w _ h .frequency 220 (by norm_num [setupKnobControls])
        (by norm_num [setupKnobControls]) e
  · exact knobsInRange_update w _ h .modSpeed 5 (by norm_num [setupKnobControls])
      (by norm_num [setupKnobControls]) (playFastMod_knobValue w)
  · rcases playEchoDub_knobValue w with e | e
    · exact knobsInRange_congr w _ h e
    · have h1 : KnobsInRange { w with knobValue := Function.update w.knobValue .delayTime (some (8 / 10)) } :=
        knobsInRange_update w _ h .delayTime (8 / 10) (by norm_num [setupKnobControls])
        (by norm_num [setupKnobControls]) rfl
      exact knobsInRange_update _ _ h1 .feedback (7 / 10) (by norm_num [setupKnobControls])
        (by norm_num [setupKnobControls]) e

theorem knobsInRange_updateValue (id : KnobId) (raw : Rat) (w : World) (h : KnobsInRange w) :
    KnobsInRange
      (updateValue id (setupKnobControls id).1 (setupKnobControls id).2 (some raw) w).world :=
  knobsInRange_update w _ h id _ (le_max_left _ _)
    (max_le (setupKnobControls_le id) (min_le_left _ _))
    (updateValue_panel id _ _ (some raw) w).1

theorem knobInv_congr (w u : World) (h : KnobInv w) (hk : u.knobValue = w.knobValue)
    (hd : u.drag = w.drag) : KnobInv u := by
  refine ⟨knobsInRange_congr w u h.1 hk, ?_⟩
  intro k
  rw [hd]
  exact h.2 k

theorem knobInv_samePanel {w u : World} (hs : SamePanel w u) (h : KnobInv w) : KnobInv u :=
  knobInv_congr w u h hs.1 hs.2.1

theorem knobInv_startPad (padId : PadId) (w : World) (hi : Inv w) (hc : w.audioContext = true)
    (h : KnobInv w) : KnobInv (startPad padId (soundFunction padId) w).world := by
  obtain ⟨u, w3, hp, -, e3, -, e⟩ := startPad_panel padId w hi hc
  rw [e]
  have hu : KnobInv (builtVoice u) := knobInv_congr u _ (knobInv_samePanel hp h) rfl rfl
  have h3 : w3 = (soundFunction padId (builtVoice u)).world := by rw [e3]; rfl
  have hb := sameBoard_soundFunction padId (builtVoice u)
  rw [← h3] at hb
  have hk := knobsInRange_soundFunction padId (builtVoice u) hu.1
  rw [← h3] at hk
  refine ⟨hk, ?_⟩
  intro k
  show (w3.drag k).isDragging = true → _
  rw [hb.1]
  exact hu.2 k

theorem knobInv_handleStart (padId : PadId) (ty : EventType) (w : World) (hi : Inv w)
    (hc : w.audioContext = true) (h : KnobInv w) :
    KnobInv (handleStart padId (soundFunction padId) ty w).world := by
  unfold handleStart touchGate
  split
  · exact h
  · rename_i w0 hw0
    split at hw0
    · cases hw0
      exact knobInv_startPad padId _ hi hc h
    · split at hw0
      · exact Option.noConfusion hw0
      · cases hw0
        exact knobInv_startPad padId w hi hc h

theorem knobInv_handleEnd (padId : PadId) (ty : EventType) (w : World) (h : KnobInv w) :
    KnobInv (handleEnd padId ty w).world := by
  unfold handleEnd
  split
  · exact h
  · have := knobInv_samePanel (samePanel_stopSound w) h
    revert this
    cases stopSound w with
    | normal w1 => exact fun h1 => h1
    | throw e w1 => exact fun h1 => h1

theorem knobInv_handleMouseMove (id : KnobId) (clientY : Rat) (w : World) (h : KnobInv w) :
    KnobInv (handleMouseMove id (setupKnobControls id).1 (setupKnobControls id).2 clientY w).world := by
  unfold handleMouseMove
  split
  · exact h
  · rename_i hdr
    obtain ⟨cv, hcv⟩ := h.2 id (by simpa using hdr)
    dsimp only
    rw [hcv]
    refine ⟨knobsInRange_updateValue id _ w h.1, ?_⟩
    intro k
    rw [(updateValue_panel id _ _ _ w).2.1]
    exact h.2 k

theorem knobInv_dispatch (e : Event) (w : World) (hi : Inv w) (h : KnobInv w) :
    KnobInv (dispatch e w).world := by
  cases e with
  | pad padId ty =>
    simp only [dispatch]
    by_cases hl : w.listening = true
    · simp only [hl, Bool.not_true, Bool.false_eq_true, if_false]
      cases ty
      · exact knobInv_handleStart _ _ _ hi (hi.1 hl) h
      · exact knobInv_handleEnd _ _ _ h
      · exact knobInv_handleEnd _ _ _ h
      · exact knobInv_handleStart _ _ _ hi (hi.1 hl) h
      · exact knobInv_handleEnd _ _ _ h
    · simp only [hl, Bool.not_false, if_true]
      exact h
  | knobDown id clientY =>
    simp only [dispatch]
    split
    · exact h
    · refine ⟨h.1, ?_⟩
      intro k hk
      by_cases hkk : k = id
      · subst hkk
        obtain ⟨v, hv, -⟩ := h.1 k
        exact ⟨v, by simp [Completion.world, knobMouseDown, hv]⟩
      · have : ((knobMouseDown id clientY w).drag k) = w.drag k := by
          simp [knobMouseDown, Function.update_noteq hkk]
        simp only [Completion.world] at hk ⊢
        rw [this] at hk ⊢
        exact h.2 k hk
  | knobMove id clientY =>
    simp only [dispatch]
    split
    · exact h
    · exact knobInv_handleMouseMove id clientY w h
  | knobUp id =>
    simp only [dispatch]
    split
    · exact h
    · refine ⟨h.1, ?_⟩
      intro k hk
      by_cases hkk : k = id
      · subst hkk
        simp [Completion.world, handleMouseUp] at hk
      · have : ((handleMouseUp id w).drag k) = w.drag k := by
          simp [handleMouseUp, Function.update_noteq hkk]
        simp only [Completion.world] at hk ⊢
        rw [this] at hk ⊢
        exact h.2 k hk
  | waveformChange wf =>
    simp only [dispatch]
    split
    · exact h
    · split <;> exact h
  | advance ms sec =>
    simp only [dispatch]
    split <;> exact h
  | fire id => exact knobInv_samePanel (samePanel_fireTimer id w) h

theorem knobInv_handle (e : Event) (w : World) (hi : Inv w) (h : KnobInv w) :
    KnobInv (handle e w) := by
  have := knobInv_dispatch e w hi h
  unfold handle
  revert this
  cases dispatch e w with
  | normal w1 => exact fun h1 => h1
  | throw err w1 => exact fun h1 => h1

theorem knobInv_loaded (page : Page)
    (hp : ∀ k : KnobId, ∃ v : Rat, page.knobValue k = some v
      ∧ (setupKnobControls k).1 ≤ v ∧ v ≤ (setupKnobControls k).2) :
    KnobInv (domContentLoaded (initialWorld page)) := by
  unfold domContentLoaded initializeAudio
  cases hs : page.audioSupported <;>
    simp [initialWorld, hs, KnobInv, KnobsInRange, DragNumeric, World.logCaught, hp]

/-- From a page whose knob values are in range, they are in range in every world the
page can reach, and every drag in progress started from a number. -/
theorem reachable_knobInv (page : Page)
    (hp : ∀ k : KnobId, ∃ v : Rat, page.knobValue k = some v
      ∧ (setupKnobControls k).1 ≤ v ∧ v ≤ (setupKnobControls k).2)
    (w : World) (h : Reachable page w) : KnobInv w := by
  induction h with
  | loaded => exact knobInv_loaded page hp
  | step e w hr ih => exact knobInv_handle e w (reachable_inv page w hr) ih

theorem knobsInRange_runKnobOps (ops : List KnobOp) (w : World) (h : KnobsInRange w) :
    KnobsInRange (runKnobOps ops w) := by
  induction ops generalizing w with
  | nil => exact h
  | cons op ops ih =>
    apply ih
    cases op with
    | drag id raw => exact knobsInRange_updateValue id raw w h
    | preset p => exact knobsInRange_soundFunction p w h

theorem demoPage_inRange (k : KnobId) :
    ∃ v : Rat, demoPage.knobValue k = some v
      ∧ (setupKnobControls k).1 ≤ v ∧ v ≤ (setupKnobControls k).2 := by
  cases k <;> exact ⟨_, rfl, by norm_num [setupKnobControls], by norm_num [setupKnobControls]⟩

/-- C13: on a page whose knob `data-value` attributes are numbers inside the ranges
declared in `setupKnobControls`, the stored value of every knob is a number inside its
range in every reachable world, whatever pads are pressed, knobs dragged or timers
fired, and it stays so under any further sequence of clamped updates with arbitrary raw
values and calls of the four sound functions.  A clamped update stores
`max(min, min(max, raw))`, which lies in the range.  `playHighSiren` and `playLowSiren`
write nothing or 880 resp. 220 into the frequency knob (range 20..2000), `playFastMod`
writes 5 into the speed knob (range 0..10), `playEchoDub` writes nothing or 0.8 into the
delay-time knob (range 0..1) and 0.7 into the feedback knob (range 0..0.9). -/
theorem knobs_stay_in_range (page : Page)
    (hp : ∀ k : KnobId, ∃ v : Rat, page.knobValue k = some v
      ∧ (setupKnobControls k).1 ≤ v ∧ v ≤ (setupKnobControls k).2) :
    (∀ w : World, Reachable page w →
        KnobsInRange w ∧ ∀ ops : List KnobOp, KnobsInRange (runKnobOps ops w))
      ∧ (∀ (id : KnobId) (raw : Rat) (u : World),
          (KnobOp.apply (.drag id raw) u).knobValue id
              = some (Max.max (setupKnobControls id).1 (Min.min (setupKnobControls id).2 raw))
            ∧ (setupKnobControls id).1
                ≤ Max.max (setupKnobControls id).1 (Min.min (setupKnobControls id).2 raw)
            ∧ Max.max (setupKnobControls id).1 (Min.min (setupKnobControls id).2 raw)
                ≤ (setupKnobControls id).2)
      ∧ (∀ u : World, (playHighSiren u).world.knobValue = u.knobValue
          ∨ (playHighSiren u).world.knobValue = Function.update u.knobValue .frequency (some 880))
      ∧ (∀ u : World, (playLowSiren u).world.knobValue = u.knobValue
          ∨ (playLowSiren u).world.knobValue = Function.update u.knobValue .frequency (some 220))
      ∧ (∀ u : World,
          (playFastMod u).world.knobValue = Function.update u.knobValue .modSpeed (some 5))
      ∧ (∀ u : World, (playEchoDub u).world.knobValue = u.knobValue
          ∨ (playEchoDub u).world.knobValue
              = Function.update (Function.update u.knobValue .delayTime (some (8 / 10)))
                  .feedback (some (7 / 10)))
      ∧ ((setupKnobControls .frequency).1 ≤ 880 ∧ 880 ≤ (setupKnobControls .frequency).2)
      ∧ ((setupKnobControls .frequency).1 ≤ 220 ∧ 220 ≤ (setupKnobControls .frequency).2)
      ∧ ((setupKnobControls .modSpeed).1 ≤ 5 ∧ 5 ≤ (setupKnobControls .modSpeed).2)
      ∧ ((setupKnobControls .delayTime).1 ≤ 8 / 10 ∧ 8 / 10 ≤ (setupKnobControls .delayTime).2)
      ∧ ((setupKnobControls .feedback).1 ≤ 7 / 10
          ∧ 7 / 10 ≤ (setupKnobControls .feedback).2) := by
  refine ⟨?_, ?_, fun u => playSiren_knobValue _ _ u, fun u => playSiren_knobValue _ _ u,
    playFastMod_knobValue, playEchoDub_knobValue, ?_, ?_, ?_, ?_, ?_⟩
  · intro w hr
    have h := (reachable_knobInv page hp w hr).1
    exact ⟨h, fun ops => knobsInRange_runKnobOps ops w h⟩
  · intro id raw u
    refine ⟨?_, le_max_left _ _, max_le (setupKnobControls_le id) (min_le_left _ _)⟩
    show (updateValue id _ _ (some raw) u).world.knobValue id = _
    rw [(updateValue_panel id _ _ _ u).1]
    simp [clampedValue]
  all_goals norm_num [setupKnobControls]

/-- Witness for C13: the demo page, whose knob values are in range, with pad 1 pressed. -/
theorem knobs_stay_in_range_witness :
    (∀ k : KnobId, ∃ v : Rat, demoPage.knobValue k = some v
        ∧ (setupKnobControls k).1 ≤ v ∧ v ≤ (setupKnobControls k).2)
      ∧ Reachable demoPage demoPlaying ∧ KnobsInRange demoPlaying :=
  ⟨demoPage_inRange, reachable_run demoPage _ _ Reachable.loaded,
    ((knobs_stay_in_range demoPage demoPage_inRange).1 demoPlaying
      (reachable_run demoPage _ _ Reachable.loaded)).1⟩

/-! ## C14 -/

/-- The value a drag step stores: the clamp of the captured value plus the scaled
displacement. -/
theorem drag_value_stored (id : KnobId) (min max startY clientY cv : Rat) (w : World)
    (hd : (w.drag id).isDragging = true) (hs : (w.drag id).startY = startY)
    (hcv : (w.drag id).currentValue = some cv) :
    (handleMouseMove id min max clientY w).world.knobValue id
      = some (Max.max min (Min.min max (cv + (startY - clientY) / 100 * (max - min)))) := by
  have he : handleMouseMove id min max clientY w
      = updateValue id min max (some (cv + (startY - clientY) / 100 * (max - min))) w := by
    unfold handleMouseMove
    rw [hd, hs, hcv]
    rfl
  rw [he, (updateValue_panel id min max _ w).1]
  simp [clampedValue]

/-- C14, as amended: while a drag is in progress (`isDragging` set, the value captured
at `mousedown` numeric), the raw value `handleMouseMove` passes to `updateValue` is the
captured value plus the displacement `startY - clientY`, divided by the fixed divisor 100
and multiplied by the knob's range `max - min`: a displacement of 100 pixels sweeps the
whole range of whichever knob is dragged.  The value captured by the `mousedown` listener
is the knob's stored value at that moment.  For `min ≤ max` both the raw value and the
value stored after clamping are non-decreasing in the displacement.  The drag handler of
`script-old.js` computes the same raw value. -/
theorem drag_raw_value (id : KnobId) (min max startY clientY cv : Rat) (w : World)
    (hd : (w.drag id).isDragging = true) (hs : (w.drag id).startY = startY)
    (hcv : (w.drag id).currentValue = some cv) :
    handleMouseMove id min max clientY w
        = updateValue id min max (some (cv + (startY - clientY) / 100 * (max - min))) w
      ∧ (handleMouseMove id min max clientY w).world.knobValue id
          = some (Max.max min (Min.min max (cv + (startY - clientY) / 100 * (max - min))))
      ∧ (∀ (y0 : Rat) (u : World),
          (knobMouseDown id y0 u).drag id = ⟨true, y0, u.knobValue id⟩)
      ∧ (min ≤ max → ∀ y1 y2 : Rat, startY - y1 ≤ startY - y2 →
          cv + (startY - y1) / 100 * (max - min) ≤ cv + (startY - y2) / 100 * (max - min)
            ∧ Max.max min (Min.min max (cv + (startY - y1) / 100 * (max - min)))
              ≤ Max.max min (Min.min max (cv + (startY - y2) / 100 * (max - min))))
      ∧ ∀ y : Rat, (OldScript.handleMouseMove min max cv startY y).1
          = Max.max min (Min.min max (cv + (startY - y) / 100 * (max - min))) := by
  have he : handleMouseMove id min max clientY w
      = updateValue id min max (some (cv + (startY - clientY) / 100 * (max - min))) w := by
    unfold handleMouseMove
    rw [hd, hs, hcv]
    rfl
  refine ⟨he, ?_, ?_, ?_, fun y => rfl⟩
  · rw [he, (updateValue_panel id min max _ w).1]
    simp [clampedValue]
  · intro y0 u
    simp [knobMouseDown]
  · intro hmm y1 y2 hy
    have hr : (0 : Rat) ≤ max - min := sub_nonneg.mpr hmm
    have h1 : cv + (startY - y1) / 100 * (max - min) ≤ cv + (startY - y2) / 100 * (max - min) := by
      have : (startY - y1) / 100 ≤ (startY - y2) / 100 := by linarith
      have := mul_le_mul_of_nonneg_right this hr
      linarith
    exact ⟨h1, max_le_max le_rfl (min_le_min le_rfl h1)⟩

/-- Witness for C14: the volume knob of the demo page (value 0.5, range `[0, 1]`) is
grabbed at `y = 10` and the pointer moved up to `y = 0`. -/
theorem drag_raw_value_witness :
    ((knobMouseDown .volume 10 demoLoaded).drag .volume).isDragging = true
      ∧ ((knobMouseDown .volume 10 demoLoaded).drag .volume).startY = 10
      ∧ ((knobMouseDown .volume 10 demoLoaded).drag .volume).currentValue = some (1 / 2)
      ∧ handleMouseMove .volume 0 1 0 (knobMouseDown .volume 10 demoLoaded)
          = updateValue .volume 0 1 (some (1 / 2 + (10 - 0) / 100 * (1 - 0)))
              (knobMouseDown .volume 10 demoLoaded) :=
  ⟨rfl, rfl, rfl,
    (drag_raw_value .volume 0 1 10 0 (1 / 2) (knobMouseDown .volume 10 demoLoaded)
      rfl rfl rfl).1⟩

/-- Counterexample to C14 as stated: on the demo page the volume knob (range `[0, 1]`)
and the room-size knob (range `[0.1, 0.9]`) both hold 0.5.  Dragging either one upwards
by the same 10 pixels passes `0.5 + 10 / 100 * 1` to `updateValue` for volume but
`0.5 + 10 / 100 * 0.8` for room size, and stores 0.6 resp. 0.58, both inside their
ranges, so nothing was clamped: the increment per pixel depends on the knob's range, and
no single divisor `c` gives `start + displacement / c` for both knobs. -/
theorem drag_step_depends_on_range :
    demoLoaded.knobValue .volume = some (1 / 2)
      ∧ demoLoaded.knobValue .roomSize = some (1 / 2)
      ∧ setupKnobControls .volume = (0, 1)
      ∧ setupKnobControls .roomSize = (1 / 10, 9 / 10)
      ∧ handleMouseMove .volume 0 1 0 (knobMouseDown .volume 10 demoLoaded)
          = updateValue .volume 0 1 (some (1 / 2 + (10 - 0) / 100 * (1 - 0)))
              (knobMouseDown .volume 10 demoLoaded)
      ∧ handleMouseMove .roomSize (1 / 10) (9 / 10) 0 (knobMouseDown .roomSize 10 demoLoaded)
          = updateValue .roomSize (1 / 10) (9 / 10)
              (some (1 / 2 + (10 - 0) / 100 * (9 / 10 - 1 / 10)))
              (knobMouseDown .roomSize 10 demoLoaded)
      ∧ (run [.knobDown .volume 10, .knobMove .volume 0] demoLoaded).knobValue .volume
          = some (6 / 10)
      ∧ (run [.knobDown .roomSize 10, .knobMove .roomSize 0] demoLoaded).knobValue .roomSize
          = some (58 / 100)
      ∧ ¬ ∃ c : Rat,
          (run [.knobDown .volume 10, .knobMove .volume 0] demoLoaded).knobValue .volume
              = some (1 / 2 + (10 - 0) / c)
            ∧ (run [.knobDown .roomSize 10, .knobMove .roomSize 0] demoLoaded).knobValue .roomSize
              = some (1 / 2 + (10 - 0) / c) := by
  have hv : (run [.knobDown .volume 10, .knobMove .volume 0] demoLoaded).knobValue .volume
      = some (6 / 10) := by
    have e : run [.knobDown .volume 10, .knobMove .volume 0] demoLoaded
        = (handleMouseMove .volume 0 1 0 (knobMouseDown .volume 10 demoLoaded)).world := rfl
    rw [e, (drag_value_stored .volume 0 1 10 0 (1 / 2) _ rfl rfl rfl)]
    norm_num
  have hr : (run [.knobDown .roomSize 10, .knobMove .roomSize 0] demoLoaded).knobValue .roomSize
      = some (58 / 100) := by
    have e : run [.knobDown .roomSize 10, .knobMove .roomSize 0] demoLoaded
        = (handleMouseMove .roomSize (1 / 10) (9 / 10) 0
            (knobMouseDown .roomSize 10 demoLoaded)).world := rfl
    rw [e, (drag_value_stored .roomSize (1 / 10) (9 / 10) 10 0 (1 / 2) _ rfl rfl rfl)]
    norm_num
  refine ⟨rfl, rfl, rfl, rfl, rfl, rfl, hv, hr, ?_⟩
  rintro ⟨c, h1, h2⟩
  rw [hv] at h1
  rw [hr] at h2
  have e1 := Option.some.inj h1
  have e2 := Option.some.inj h2
  rw [← e1] at e2
  norm_num at e2

/-! ## C15 -/

end DubSiren
